import Mathlib

/-!
Shallow embedding of the script-task actor core of the repository
(src/components/script/script_task.rs), together with proofs about its
page tree, reflow coordination, event batching, shutdown protocol and
crash-safety guard.

Modelling conventions:
* machine integers (`uint`, pipeline ids, reflow ids) are `Nat`;
* window sizes (`TypedSize2D<PagePx, f32>`) are opaque payloads, modelled
  as `Nat × Nat` tokens — the code never computes with them, it only
  stores and forwards them;
* `Rc`/`RefCell`/`Cell` interior mutability collapses to plain fields of a
  pure state record, updated by explicit state passing (the actor is
  single-threaded, see spec section 5);
* code that can `fail!`/`expect`/`unwrap` is modelled with `Option` or
  `Except`, `none`/`.error` being the panic;
* observable side effects (messages to the compositor, the layout task and
  the constellation) are returned as explicit event lists.
-/

/-- Ready states sent to the compositor via `ScriptListener::set_ready_state`
(`servo_msg::compositor_msg`). -/
inductive ReadyState : Type where
  | Loading
  | PerformingLayout
  | FinishedLoading
  deriving DecidableEq, Repr

/-- Damage levels, from `layout_interface::DocumentDamageLevel`
(used in script_task.rs as `ReflowDocumentDamage`,
`MatchSelectorsDocumentDamage`, `ContentChangedDocumentDamage`). -/
inductive DocumentDamageLevel : Type where
  | ReflowDocumentDamage
  | MatchSelectorsDocumentDamage
  | ContentChangedDocumentDamage
  deriving DecidableEq, Repr

/-- Severity rank used to merge damage levels. -/
def DocumentDamageLevel.sev : DocumentDamageLevel → Nat
  | .ReflowDocumentDamage => 0
  | .MatchSelectorsDocumentDamage => 1
  | .ContentChangedDocumentDamage => 2

/-- Modelled from the spec: `DocumentDamageLevel::add` lives in
`layout_interface`, which is not part of the sources; the spec (section 3)
says the merge rule unions the damage-level flags, which for the three
linearly ordered levels is taking the more severe one. -/
def DocumentDamageLevel.add (a b : DocumentDamageLevel) : DocumentDamageLevel :=
  if a.sev < b.sev then b else a

/-- `layout_interface::DocumentDamage`: a root node address plus a level. -/
structure DocumentDamage : Type where
  root : Nat
  level : DocumentDamageLevel
  deriving DecidableEq, Repr

/-- Modelled from the spec: `layout_interface::ReflowGoal` is not part of the
sources; script_task.rs only ever sends `ReflowForDisplay`, and the interface
also has a script-query goal (spec section 4.3/6). -/
inductive ReflowGoal : Type where
  | ReflowForDisplay
  | ReflowForScriptQuery
  deriving DecidableEq, Repr

/-- A frame (`Frame { document, window }`); for the claims all that matters
about the document is whether `GetDocumentElement()` returns an element, so
the frame carries that result: `none` when the document has no root element,
`some addr` for the element's (trusted) node address. -/
structure Frame : Type where
  documentElement : Option Nat
  deriving DecidableEq, Repr

/-- Per-page mutable state: the fields of `struct Page` (script_task.rs,
lines 125-174) that the verified operations read or write.  `layout_chan`,
`resource_task` and `constellation_chan` are channel handles with no
observable state and are dropped; `js_info` keeps only its presence.
`layout_join_port` holds an abstract token naming the outstanding completion
channel (`Receiver<()>`), `none` meaning layout is not running. -/
structure PageData : Type where
  id : Nat
  subpage_id : Option Nat
  last_reflow_id : Nat
  frame : Option Frame
  layout_join_port : Option Nat
  damage : Option DocumentDamage
  window_size : Nat × Nat
  js_info : Option Unit
  url : Option (Nat × Bool)
  next_subpage_id : Nat
  resize_event : Option (Nat × Nat)
  fragment_node : Option Nat
  deriving DecidableEq, Repr

/-- The page tree: each `Page` owns its ordered `children: Vec<Rc<Page>>`. -/
inductive Page : Type where
  | node : PageData → List Page → Page
  deriving Repr

/-- Scalar fields of a tree node. -/
def Page.data : Page → PageData
  | .node d _ => d

/-- Children of a tree node. -/
def Page.children : Page → List Page
  | .node _ cs => cs

/-- Pipeline id of a tree node (`Page::id`). -/
def Page.id (p : Page) : Nat := p.data.id

mutual

/-- `IterablePage::find` (script_task.rs, lines 190-198): return this page if
the id matches, otherwise the first hit found by recursing into the children
in order. -/
def Page.find (p : Page) (i : Nat) : Option Page :=
  match p with
  | .node d cs => if d.id = i then some (.node d cs) else Page.find_in_kids cs i

/-- The `for page in self.children { ... }` loop inside `find`. -/
def Page.find_in_kids (cs : List Page) (i : Nat) : Option Page :=
  match cs with
  | [] => none
  | c :: cs' =>
    match c.find i with
    | some r => some r
    | none => Page.find_in_kids cs' i

end

/-- Scalar data of the page `find` locates, if any. -/
def Page.dataOf (p : Page) (i : Nat) : Option PageData :=
  (p.find i).map Page.data

mutual

/-- All nodes of a subtree, in preorder (used to say "every page in the
subtree"). -/
def Page.nodesL (p : Page) : List Page :=
  match p with
  | .node d cs => .node d cs :: Page.nodesL_kids cs

/-- Nodes of a forest, in preorder. -/
def Page.nodesL_kids (cs : List Page) : List Page :=
  match cs with
  | [] => []
  | c :: cs' => c.nodesL ++ Page.nodesL_kids cs'

end

mutual

/-- All pipeline ids of a subtree, in preorder. -/
def Page.idsL (p : Page) : List Nat :=
  match p with
  | .node d cs => d.id :: Page.idsL_kids cs

/-- Pipeline ids of a forest. -/
def Page.idsL_kids (cs : List Page) : List Nat :=
  match cs with
  | [] => []
  | c :: cs' => c.idsL ++ Page.idsL_kids cs'

end

mutual

/-- Number of nodes of a subtree (termination measure for the iterator). -/
def Page.psize (p : Page) : Nat :=
  match p with
  | .node _ cs => 1 + Page.psize_kids cs

/-- Number of nodes of a forest. -/
def Page.psize_kids (cs : List Page) : Nat :=
  match cs with
  | [] => 0
  | c :: cs' => c.psize + Page.psize_kids cs'

end

/-- `Iterator for PageIterator` (script_task.rs, lines 261-273): pop the top
of the stack (`Vec::pop` takes the last element), push the clones of the
popped page's children in order (so the iterator visits the last child
first), yield the popped page.  The stack's top is the list head here. -/
def Page.iterAux (stack : List Page) : List Page :=
  match stack with
  | [] => []
  | .node d cs :: rest => .node d cs :: Page.iterAux (cs.reverse ++ rest)
termination_by Page.psize_kids stack
decreasing_by
  have happ : ∀ (xs ys : List Page),
      Page.psize_kids (xs ++ ys) = Page.psize_kids xs + Page.psize_kids ys := by
    intro xs ys
    induction xs with
    | nil => simp [Page.psize_kids]
    | cons c cs2 ih => simp [Page.psize_kids, ih]; omega
  have hrev : ∀ (xs : List Page), Page.psize_kids xs.reverse = Page.psize_kids xs := by
    intro xs
    induction xs with
    | nil => rfl
    | cons c cs2 ih =>
      simp only [List.reverse_cons, happ, Page.psize_kids, ih]
      omega
  simp only [Page.psize_kids, Page.psize, happ, hrev]
  omega

mutual

/-- The sequence of pages an iterator started at `p` yields, written as a
structural function: the page itself, then the children's subtrees, last
child first (`Page.iterAux_eq_iterFrom` below proves this matches the
stack-based iterator). -/
def Page.iterFrom (p : Page) : List Page :=
  match p with
  | .node d cs => .node d cs :: Page.iterFrom_kids cs

/-- Subtree sequences of the children `cs`, last child first. -/
def Page.iterFrom_kids (cs : List Page) : List Page :=
  match cs with
  | [] => []
  | c :: cs' => Page.iterFrom_kids cs' ++ c.iterFrom

end

mutual

/-- `Page::remove` (script_task.rs, lines 232-258): first look for a direct
child whose id matches and splice it out of `children`; otherwise recurse
into each child in order.  The receiver itself is never examined.  Returns
the removed subtree together with the updated receiver. -/
def Page.remove (p : Page) (i : Nat) : Option (Page × Page) :=
  match p with
  | .node d cs =>
    match Page.remove_direct cs i with
    | some (rm, cs') => some (rm, .node d cs')
    | none =>
      match Page.remove_in_kids cs i with
      | some (rm, cs') => some (rm, .node d cs')
      | none => none

/-- The direct-child scan of `remove`: the `remove_idx` computation plus
`self.children.borrow_mut().remove(idx)`. -/
def Page.remove_direct (cs : List Page) (i : Nat) : Option (Page × List Page) :=
  match cs with
  | [] => none
  | c :: cs' =>
    if c.data.id = i then some (c, cs')
    else (Page.remove_direct cs' i).map (fun r => (r.1, c :: r.2))

/-- The recursive loop of `remove` (`for page_tree in children { page_tree.remove(id) }`);
the updated child stays in place. -/
def Page.remove_in_kids (cs : List Page) (i : Nat) : Option (Page × List Page) :=
  match cs with
  | [] => none
  | c :: cs' =>
    match c.remove i with
    | some (rm, c2) => some (rm, c2 :: cs')
    | none => (Page.remove_in_kids cs' i).map (fun r => (r.1, c :: r.2))

end

mutual

/-- Effect of `page.resize_event.deref().set(Some(size))` on the page that
`find` locates (handle_msgs, lines 752-755); `none` models the
`expect("resize sent to nonexistent pipeline")` panic when no page in the
tree has the pipeline id. -/
def Page.set_resize_event (p : Page) (i : Nat) (size : Nat × Nat) : Option Page :=
  match p with
  | .node d cs =>
    if d.id = i then some (.node { d with resize_event := some size } cs)
    else (Page.set_resize_event_kids cs i size).map (fun cs' => .node d cs')

/-- Forest version of `Page.set_resize_event`: update the first subtree that
contains the id. -/
def Page.set_resize_event_kids (cs : List Page) (i : Nat) (size : Nat × Nat) :
    Option (List Page) :=
  match cs with
  | [] => none
  | c :: cs' =>
    match c.set_resize_event i size with
    | some c2 => some (c2 :: cs')
    | none => (Page.set_resize_event_kids cs' i size).map (fun cs2 => c :: cs2)

end

/-- Per-page step of the pending-resize consumption loop (handle_msgs, lines
724-737): only when layout is idle (`layout_join_port` is `none`) the
pending resize is taken (recorded as a dispatch `(page id, size)`) and the
slot is cleared. -/
def consume_resize (d : PageData) : PageData × Option (Nat × (Nat × Nat)) :=
  if d.layout_join_port = none then
    ({ d with resize_event := none }, d.resize_event.map (fun size => (d.id, size)))
  else (d, none)

mutual

/-- The pending-resize consumption phase over the whole tree (handle_msgs,
lines 722-742): returns the updated tree and the list of synthesized
`(pipeline id, size)` resize dispatches, one per idle page with a pending
resize.  (The Rust loop walks `page.iter()`, which visits each page exactly
once; the dispatch list is collected here in preorder, which permutes the
list across distinct pages but yields the same per-page dispatches.) -/
def Page.gather_resizes (p : Page) : Page × List (Nat × (Nat × Nat)) :=
  match p with
  | .node d cs =>
    let r := consume_resize d
    let rk := Page.gather_resizes_kids cs
    (.node r.1 rk.1, (match r.2 with | some x => [x] | none => []) ++ rk.2)

/-- Forest version of `Page.gather_resizes`. -/
def Page.gather_resizes_kids (cs : List Page) : List Page × List (Nat × (Nat × Nat)) :=
  match cs with
  | [] => ([], [])
  | c :: cs' =>
    let rc := c.gather_resizes
    let rcs := Page.gather_resizes_kids cs'
    (rc.1 :: rcs.1, rc.2 ++ rcs.2)

end

mutual

/-- Effect of the `ScriptMemoryFailsafe` release loop
`for page in page.iter() { *page.mut_js_info() = None; }` (lines 588-599):
every page of the tree loses its `js_info`. -/
def Page.clear_js_all (p : Page) : Page :=
  match p with
  | .node d cs => .node { d with js_info := none } (Page.clear_js_all_kids cs)

/-- Forest version of `Page.clear_js_all`. -/
def Page.clear_js_all_kids (cs : List Page) : List Page :=
  match cs with
  | [] => []
  | c :: cs' => c.clear_js_all :: Page.clear_js_all_kids cs'

end

/-- Panics the reflow path can hit: `fail!("Layout task failed while script
was waiting for a result.")` in `join_layout`; `get_ref()` on a `None` url in
`get_url`; `.unwrap()` on a `None` damage in `reflow`. -/
inductive ScriptPanic : Type where
  | layoutTaskFailed
  | missingUrl
  | missingDamage
  deriving DecidableEq, Repr

/-- Behaviour of the outstanding layout completion channel, as observed by a
blocking join: either a completion signal is (eventually) received — the
`Ok(_)` of `try_recv`, or the blocking `recv()` after `Err(Empty)` — or the
channel is closed without ever signalling (`Err(Disconnected)`). -/
inductive JoinChannel : Type where
  | signals
  | closedWithoutSignal
  deriving DecidableEq, Repr

/-- Observable actions of the reflow coordination path, in program order:
joining the outstanding completion channel, `set_ready_state` to the
compositor, storing a fresh join port as the in-flight handle, and sending
`ReflowMsg` to the layout task (carrying the request's reflow id, url,
damage root and level, goal, and window size). -/
inductive ScriptEvent : Type where
  | layoutJoined (port : Nat)
  | setReadyState (s : ReadyState)
  | installJoinPort (port : Nat)
  | sendReflowMsg (id : Nat) (url : Nat) (damageRoot : Nat)
      (level : DocumentDamageLevel) (goal : ReflowGoal) (size : Nat × Nat)
  deriving DecidableEq, Repr

/-- `Page::join_layout` (script_task.rs, lines 342-364): if a join port is
present, take it out (the handle becomes `None`) and block until the
completion signal is observed; a channel closed without a signal is a fatal
error. -/
def PageData.join_layout (p : PageData) (ch : JoinChannel) :
    Except ScriptPanic (PageData × List ScriptEvent) :=
  match p.layout_join_port with
  | none => .ok (p, [])
  | some j =>
    match ch with
    | .signals => .ok ({ p with layout_join_port := none }, [.layoutJoined j])
    | .closedWithoutSignal => .error .layoutTaskFailed

/-- `Page::damage` (script_task.rs, lines 307-334): do nothing without a live
frame or without a document root element; otherwise merge into the pending
damage (keeping the most recently supplied root and adding the level) or
install a fresh descriptor.  (The method is called `damage` in Rust; the
name here avoids clashing with the field of the same name.) -/
def PageData.add_damage (p : PageData) (level : DocumentDamageLevel) : PageData :=
  match p.frame with
  | none => p
  | some f =>
    match f.documentElement with
    | none => p
    | some root =>
      match p.damage with
      | some d =>
        { p with damage := some { root := root, level := d.level.add level } }
      | none => { p with damage := some { root := root, level := level } }

/-- `Page::reflow` (script_task.rs, lines 384-437).  Without a live frame, or
with a document that has no root element, it returns with nothing changed and
nothing sent.  Otherwise: join any outstanding reflow, tell the compositor
layout is running, install a fresh completion channel as the in-flight handle
(the fresh `Receiver` is represented by the token `last_reflow_id + 1`),
increment `last_reflow_id`, and build and send the reflow request — reading
the url (panic if none was ever recorded) and taking the damage out of the
page (panic if none is pending), in the evaluation order of the Rust struct
literal. -/
def PageData.reflow (p : PageData) (ch : JoinChannel) (goal : ReflowGoal) :
    Except ScriptPanic (PageData × List ScriptEvent) :=
  match p.frame with
  | none => .ok (p, [])
  | some f =>
    match f.documentElement with
    | none => .ok (p, [])
    | some _rootElem =>
      match p.join_layout ch with
      | .error e => .error e
      | .ok (p1, evs0) =>
        let evs1 := evs0 ++ [.setReadyState .PerformingLayout]
        let newPort := p1.last_reflow_id + 1
        let p2 := { p1 with
          layout_join_port := some newPort,
          last_reflow_id := p1.last_reflow_id + 1 }
        let evs2 := evs1 ++ [.installJoinPort newPort]
        match p2.url with
        | none => .error .missingUrl
        | some u =>
          match p2.damage with
          | none => .error .missingDamage
          | some dmg =>
            .ok ({ p2 with damage := none },
              evs2 ++ [.sendReflowMsg p2.last_reflow_id u.1 dmg.root dmg.level
                goal p2.window_size])

/-- `ScriptTask::handle_reflow_complete_msg` (script_task.rs, lines 849-861),
acting on the page `find` located: if the completion's reflow id equals the
page's `last_reflow_id` the in-flight handle is cleared; otherwise the page
is left unchanged.  Either way `FinishedLoading` is sent to the compositor. -/
def handle_reflow_complete_msg (p : PageData) (reflow_id : Nat) :
    PageData × List ScriptEvent :=
  (if p.last_reflow_id = reflow_id then { p with layout_join_port := none } else p,
   [.setReadyState .FinishedLoading])

/-- The control messages of the script task (`enum ScriptMsg`, script_task.rs
lines 69-96), with payloads reduced to opaque tokens. -/
inductive ScriptMsg : Type where
  | LoadMsg (id : Nat) (url : Nat)
  | TriggerFragmentMsg (id : Nat) (url : Nat)
  | TriggerLoadMsg (id : Nat) (url : Nat)
  | AttachLayoutMsg (old_id new_id subpage : Nat)
  | NavigateMsg (forward : Bool)
  | SendEventMsg (id : Nat) (ev : Nat)
  | ResizeMsg (id : Nat) (size : Nat × Nat)
  | FireTimerMsg (id : Nat) (timer : Nat)
  | ReflowCompleteMsg (id : Nat) (reflow_id : Nat)
  | ResizeInactiveMsg (id : Nat) (size : Nat × Nat)
  | ExitPipelineMsg (id : Nat)
  | ExitWindowMsg (id : Nat)
  | XHRProgressMsg (addr : Nat) (progress : Nat)
  deriving DecidableEq, Repr

/-- Whether a message is a `ResizeMsg`. -/
def ScriptMsg.isResize : ScriptMsg → Bool
  | .ResizeMsg _ _ => true
  | _ => false

/-- One iteration of the drain loop of `handle_msgs` (script_task.rs, lines
750-766): a resize message is not queued but stored as the page's latest
pending resize (`none` models the `expect` panic when the pipeline id has no
page); every other message is appended to the `sequential` batch. -/
def handle_msgs_store (t : Page) (seq : List ScriptMsg) (msg : ScriptMsg) :
    Option (Page × List ScriptMsg) :=
  match msg with
  | .ResizeMsg i size => (t.set_resize_event i size).map (fun t' => (t', seq))
  | m => some (t, seq ++ [m])

/-- The whole drain loop of `handle_msgs` over the messages available in this
iteration, in arrival order. -/
def handle_msgs_drain (t : Page) (seq : List ScriptMsg) :
    List ScriptMsg → Option (Page × List ScriptMsg)
  | [] => some (t, seq)
  | m :: ms =>
    match handle_msgs_store t seq m with
    | none => none
    | some (t', seq') => handle_msgs_drain t' seq' ms

/-- The size carried by the last `ResizeMsg` for pipeline `j` in `msgs`, if
any (later messages win). -/
def last_resize_for (j : Nat) : List ScriptMsg → Option (Nat × Nat)
  | [] => none
  | m :: ms =>
    match last_resize_for j ms with
    | some size => some size
    | none =>
      match m with
      | .ResizeMsg i size => if i = j then some size else none
      | _ => none

/-- The size a message contributes to pipeline `j`'s resize history:
`some size` for a `ResizeMsg` addressed to `j`, nothing otherwise. -/
def resize_pick (j : Nat) (m : ScriptMsg) : Option (Nat × Nat) :=
  match m with
  | .ResizeMsg i size => if i = j then some size else none
  | _ => none

/-- The sizes of all `ResizeMsg`s for pipeline `j` in `msgs`, in arrival
order. -/
def resize_sizes_for (j : Nat) (msgs : List ScriptMsg) : List (Nat × Nat) :=
  msgs.filterMap (resize_pick j)

/-- Observable actions of `shut_down_layout` (script_task.rs, lines
1240-1273), tagged with the pipeline id of the page acted on: joining an
outstanding reflow, the synchronous prepare-to-exit round trip
(`PrepareToExitMsg` then the blocking `response_port.recv()`), clearing the
frame, releasing the page's JS context (`js_info = None`), the forced
`JS_GC` on the shared runtime, and the fire-and-forget `ExitNowMsg`. -/
inductive ShutdownEvent : Type where
  | layoutJoined (pid : Nat)
  | prepareToExitSent (pid : Nat)
  | prepareToExitAck (pid : Nat)
  | frameCleared (pid : Nat)
  | jsInfoCleared (pid : Nat)
  | gcForced
  | exitNowSent (pid : Nat)
  deriving DecidableEq, Repr

/-- Phase number of a shutdown event: 0 for the join/prepare-to-exit round
trips, 1 for frame clearing, 2 for context release, 3 for the forced GC,
4 for exit-now. -/
def ShutdownEvent.phase : ShutdownEvent → Nat
  | .layoutJoined _ => 0
  | .prepareToExitSent _ => 0
  | .prepareToExitAck _ => 0
  | .frameCleared _ => 1
  | .jsInfoCleared _ => 2
  | .gcForced => 3
  | .exitNowSent _ => 4

/-- The phase-one actions for one page: join any outstanding reflow, then the
synchronous prepare-to-exit round trip. -/
def shutdown_phase1 (p : Page) : List ShutdownEvent :=
  (if p.data.layout_join_port.isSome then [.layoutJoined p.id] else [])
    ++ [.prepareToExitSent p.id, .prepareToExitAck p.id]

mutual

/-- State left by `shut_down_layout` on every page: reflow joined (port
taken), frame cleared, js context released. -/
def Page.shutdown_state (p : Page) : Page :=
  match p with
  | .node d cs =>
    .node { d with layout_join_port := none, frame := none, js_info := none }
      (Page.shutdown_state_kids cs)

/-- Forest version of `Page.shutdown_state`. -/
def Page.shutdown_state_kids (cs : List Page) : List Page :=
  match cs with
  | [] => []
  | c :: cs' => c.shutdown_state :: Page.shutdown_state_kids cs'

end

/-- `shut_down_layout` (script_task.rs, lines 1240-1273): four `page.iter()`
loops with a forced GC between the last two — join + prepare-to-exit for
every page, then clear every frame, then release every js context, then
`JS_GC`, then send exit-now to every layout task — returning the torn-down
tree and the trace of observable actions. -/
def shut_down_layout (t : Page) : Page × List ShutdownEvent :=
  (t.shutdown_state,
   (t.iterFrom.map shutdown_phase1).flatten
     ++ t.iterFrom.map (fun p => .frameCleared p.id)
     ++ t.iterFrom.map (fun p => .jsInfoCleared p.id)
     ++ [.gcForced]
     ++ t.iterFrom.map (fun p => .exitNowSent p.id))

/-- The state the `ScriptMemoryFailsafe` guard acts on: the page tree and the
task's shared `js_context` handle. -/
structure ScriptTaskState : Type where
  page : Page
  js_context : Option Unit

/-- `ScriptMemoryFailsafe` (script_task.rs, lines 570-600): an `owner`
back-reference that is `Some` while armed. -/
structure ScriptMemoryFailsafe : Type where
  owner : Option Unit

/-- `ScriptMemoryFailsafe::neuter`: clear the owner. -/
def ScriptMemoryFailsafe.neuter (_f : ScriptMemoryFailsafe) : ScriptMemoryFailsafe :=
  { owner := none }

/-- `Drop for ScriptMemoryFailsafe` (script_task.rs, lines 586-600): with a
live owner, clear `js_info` on every page of the whole tree and drop the
shared `js_context`; with no owner, do nothing. -/
def ScriptMemoryFailsafe.fire (f : ScriptMemoryFailsafe) (st : ScriptTaskState) :
    ScriptTaskState :=
  match f.owner with
  | some _ => { page := st.page.clear_js_all, js_context := none }
  | none => st

/-- Result of the pointer-move handler: whether (and with which damage level)
a reflow was requested, and the stored hovered-element list afterwards. -/
structure MouseMoveResult : Type where
  reflow_with_damage : Option DocumentDamageLevel
  mouse_over_targets : Option (List Nat)
  deriving DecidableEq, Repr

/-- The `target_compare` accumulation inside the `MouseMoveEvent` loop
(script_task.rs, lines 1171-1194): starting from `false`, for each element
derived from a hit node, when a previous hovered list exists and no change
was seen yet, record whether the element is missing from it. -/
def mouse_move_compare_loop (old : Option (List Nat)) (target_list : List Nat) : Bool :=
  target_list.foldl
    (fun tc n =>
      match old with
      | some o => if !tc then !(o.contains n) else tc
      | none => tc)
    false

/-- The full change test of the `MouseMoveEvent` handler: the loop above,
then (lines 1195-1202) `true` when the lengths differ, and `true` when there
was no previously hovered list. -/
def mouse_move_target_compare (old : Option (List Nat)) (target_list : List Nat) :
    Bool :=
  match old with
  | some o =>
    if o.length ≠ target_list.length then true
    else mouse_move_compare_loop old target_list
  | none => true

/-- The `MouseMoveEvent` arm of `ScriptTask::handle_event` (script_task.rs,
lines 1152-1215) for a hit test returning a node set, abstracted on the list
of elements derived from those nodes (`target_list`, in order, possibly with
repeats): when the change test fires and a previous hovered list exists the
page gets `MatchSelectorsDocumentDamage` and a reflow request; the stored
list is replaced exactly when the change test fires. -/
def handle_mouse_move (old : Option (List Nat)) (target_list : List Nat) :
    MouseMoveResult :=
  let tc := mouse_move_target_compare old target_list
  { reflow_with_damage :=
      if tc && old.isSome then some .MatchSelectorsDocumentDamage else none,
    mouse_over_targets := if tc then some target_list else old }

/-- Hover flags after the `MouseMoveEvent` handler: the handler first clears
the hover flag of every node in the old stored list (lines 1160-1169), then
sets it on every element derived from the hit nodes (line 1180). -/
def hover_after (old : Option (List Nat)) (target_list : List Nat)
    (hovered : Nat → Bool) : Nat → Bool :=
  fun n => (hovered n && !((old.getD []).contains n)) || target_list.contains n

/-- A page-data fixture: pipeline id `i`, everything else in its just-created
state (`Page::new`, lines 202-229, with the initial window size as `(0,0)`). -/
def basePageData (i : Nat) : PageData :=
  { id := i
    subpage_id := none
    last_reflow_id := 0
    frame := none
    layout_join_port := none
    damage := none
    window_size := (0, 0)
    js_info := some ()
    url := none
    next_subpage_id := 0
    resize_event := none
    fragment_node := none }

/-- A leaf page fixture. -/
def leafPage (i : Nat) : Page := .node (basePageData i) []

/-- A loaded page-data fixture used by witnesses: live frame with a document
element, a recorded url, pending damage, an outstanding join port `5`. -/
def busyPageData : PageData :=
  { basePageData 0 with
    frame := some { documentElement := some 7 }
    url := some (3, false)
    damage := some { root := 7, level := .ReflowDocumentDamage }
    layout_join_port := some 5 }

/-- C4: on a reflow-complete message carrying id `r` for a page: if `r`
equals the page's current `last_reflow_id` the in-flight handle
(`layout_join_port`) is cleared to `none`; otherwise the page's state is left
completely unchanged; in both cases the compositor is notified that
loading/layout has finished. -/
theorem reflow_complete_clears_only_matching (p : PageData) (r : Nat) :
    (p.last_reflow_id = r →
      handle_reflow_complete_msg p r =
        ({ p with layout_join_port := none }, [.setReadyState .FinishedLoading]))
    ∧ (p.last_reflow_id ≠ r →
      handle_reflow_complete_msg p r = (p, [.setReadyState .FinishedLoading])) := by
  constructor <;> intro h <;> simp [handle_reflow_complete_msg, h]

/-- Witness for C4: a page with `last_reflow_id = 3` and join port `9`; a
matching completion clears the port, a stale completion (id 4) changes
nothing, and both notify the compositor. -/
theorem reflow_complete_clears_only_matching_witness :
    handle_reflow_complete_msg
        { basePageData 0 with last_reflow_id := 3, layout_join_port := some 9 } 3 =
      ({ basePageData 0 with last_reflow_id := 3, layout_join_port := none },
       [.setReadyState .FinishedLoading])
    ∧ handle_reflow_complete_msg
        { basePageData 0 with last_reflow_id := 3, layout_join_port := some 9 } 4 =
      ({ basePageData 0 with last_reflow_id := 3, layout_join_port := some 9 },
       [.setReadyState .FinishedLoading]) := by
  constructor
  · exact (reflow_complete_clears_only_matching
      { basePageData 0 with last_reflow_id := 3, layout_join_port := some 9 } 3).1 rfl
  · exact (reflow_complete_clears_only_matching
      { basePageData 0 with last_reflow_id := 3, layout_join_port := some 9 } 4).2
      (by decide)

/-- C1: whenever `Page::reflow` issues a new reflow request while a reflow
was outstanding (the in-flight handle held port `j`), the prior reflow is
joined first: in the reflow's event trace, every installation of a new
in-flight handle and every request sent to layout is strictly preceded by
the observation of port `j`'s completion signal. -/
theorem reflow_joins_before_new_request
    (p : PageData) (ch : JoinChannel) (goal : ReflowGoal) (j : Nat)
    (p' : PageData) (evs : List ScriptEvent)
    (hport : p.layout_join_port = some j)
    (hok : p.reflow ch goal = .ok (p', evs)) :
    ∀ i e, evs.get? i = some e →
      ((∃ np, e = .installJoinPort np) ∨
        (∃ a b c d g s, e = .sendReflowMsg a b c d g s)) →
      ∃ k, k < i ∧ evs.get? k = some (.layoutJoined j) := by
  intro i e hget he
  cases hf : p.frame with
  | none =>
    simp [PageData.reflow, hf] at hok
    rw [hok.2] at hget
    simp at hget
  | some f =>
    cases hd : f.documentElement with
    | none =>
      simp [PageData.reflow, hf, hd] at hok
      rw [hok.2] at hget
      simp at hget
    | some rootElem =>
      cases ch with
      | closedWithoutSignal =>
        simp [PageData.reflow, PageData.join_layout, hf, hd, hport] at hok
      | signals =>
        simp [PageData.reflow, PageData.join_layout, hf, hd, hport] at hok
        cases hu : p.url with
        | none => simp [hu] at hok
        | some u =>
          cases hdm : p.damage with
          | none => simp [hu, hdm] at hok
          | some dmg =>
            simp [hu, hdm] at hok
            have hevs := hok.2
            subst hevs
            match i with
            | 0 =>
              simp at hget
              subst hget
              rcases he with ⟨np, h⟩ | ⟨a, b, c, d, g, s, h⟩ <;> simp at h
            | 1 =>
              simp at hget
              subst hget
              rcases he with ⟨np, h⟩ | ⟨a, b, c, d, g, s, h⟩ <;> simp at h
            | 2 => exact ⟨0, by omega, rfl⟩
            | 3 => exact ⟨0, by omega, rfl⟩
            | (n + 4) => simp at hget

/-- Witness for C1: a loaded page with outstanding join port `5`; its reflow
trace joins port 5 (index 0) strictly before installing the fresh handle
(index 2). -/
theorem reflow_joins_before_new_request_witness :
    ∃ k, k < 2 ∧
      ([.layoutJoined 5, .setReadyState .PerformingLayout, .installJoinPort 1,
        .sendReflowMsg 1 3 7 .ReflowDocumentDamage .ReflowForDisplay (0, 0)] :
        List ScriptEvent).get? k = some (.layoutJoined 5) :=
  reflow_joins_before_new_request busyPageData .signals .ReflowForDisplay 5
    { busyPageData with
      layout_join_port := some 1, last_reflow_id := 1, damage := none }
    [.layoutJoined 5, .setReadyState .PerformingLayout, .installJoinPort 1,
      .sendReflowMsg 1 3 7 .ReflowDocumentDamage .ReflowForDisplay (0, 0)]
    rfl rfl 2 (.installJoinPort 1) rfl (.inl ⟨1, rfl⟩)

/-- A page with a live frame whose document has no root element, with a
recorded url and pending damage. -/
def framedNoRootPage : PageData :=
  { basePageData 0 with
    frame := some { documentElement := none }
    url := some (2, true)
    damage := some { root := 1, level := .ReflowDocumentDamage } }

/-- Counterexample to C6: `Page::reflow` has a silent-drop condition beyond
the liveness of the frame (and the window size, which in this code always
holds a value, is never consulted): on a page whose frame is live but whose
document has no root element, reflow returns with the page unchanged, no
host notification, no completion channel allocated, no `last_reflow_id`
increment and nothing sent to layout. -/
theorem reflow_drops_despite_live_frame :
    framedNoRootPage.frame ≠ none ∧
      framedNoRootPage.reflow .signals .ReflowForDisplay =
        .ok (framedNoRootPage, []) := by
  constructor
  · decide
  · rfl

/-- C6 (amended): `Page::reflow` silently drops the request — returning with
the page unchanged (no `last_reflow_id` increment, no in-flight handle
installed, no damage taken) and an empty event trace (no host notification,
nothing sent to the layout task) — precisely when the page has no live frame
or the frame's document has no root element.  The `window_size` field always
holds a value (set at page construction) and is never checked. -/
theorem reflow_silent_drop_characterization
    (p : PageData) (ch : JoinChannel) (goal : ReflowGoal) :
    p.reflow ch goal = .ok (p, []) ↔
      (p.frame = none ∨ ∃ f, p.frame = some f ∧ f.documentElement = none) := by
  constructor
  · intro h
    cases hf : p.frame with
    | none => exact Or.inl rfl
    | some f =>
      cases hd : f.documentElement with
      | none => exact Or.inr ⟨f, rfl, hd⟩
      | some rootElem =>
        exfalso
        cases ch with
        | closedWithoutSignal =>
          cases hport : p.layout_join_port with
          | none =>
            simp [PageData.reflow, PageData.join_layout, hf, hd, hport] at h
            cases hu : p.url with
            | none => simp [hu] at h
            | some u =>
              cases hdm : p.damage with
              | none => simp [hu, hdm] at h
              | some dmg => simp [hu, hdm] at h
          | some j => simp [PageData.reflow, PageData.join_layout, hf, hd, hport] at h
        | signals =>
          cases hport : p.layout_join_port with
          | none =>
            simp [PageData.reflow, PageData.join_layout, hf, hd, hport] at h
            cases hu : p.url with
            | none => simp [hu] at h
            | some u =>
              cases hdm : p.damage with
              | none => simp [hu, hdm] at h
              | some dmg => simp [hu, hdm] at h
          | some j =>
            simp [PageData.reflow, PageData.join_layout, hf, hd, hport] at h
            cases hu : p.url with
            | none => simp [hu] at h
            | some u =>
              cases hdm : p.damage with
              | none => simp [hu, hdm] at h
              | some dmg => simp [hu, hdm] at h
  · intro h
    rcases h with h | ⟨f, hf, hd⟩
    · simp [PageData.reflow, h]
    · simp [PageData.reflow, hf, hd]

/-- C10: with a live frame whose document has a root element (and a recorded
url, which the request builder reads first), reaching the request-build step
unwraps the accumulated damage, so `Page::reflow` with no damage pending
panics; under the actor's dispatch pattern — `page.damage(level)` is called
before `page.reflow(..)` — that panic branch is unreachable, because
`Page::damage` installs a descriptor whenever a live frame with a document
element exists; and a reflow that does send a request always takes the
damage out of the page, leaving none pending. -/
theorem reflow_damage_unwrap_protocol :
    (∀ (p : PageData) (goal : ReflowGoal) (f : Frame) (r : Nat) (u : Nat × Bool),
      p.frame = some f → f.documentElement = some r → p.url = some u →
      p.damage = none → p.reflow .signals goal = .error .missingDamage)
    ∧ (∀ (p : PageData) (lv : DocumentDamageLevel) (ch : JoinChannel)
        (goal : ReflowGoal),
      (p.add_damage lv).reflow ch goal ≠ .error .missingDamage)
    ∧ (∀ (p : PageData) (ch : JoinChannel) (goal : ReflowGoal) (p' : PageData)
        (evs : List ScriptEvent) (a b c : Nat) (d : DocumentDamageLevel)
        (g : ReflowGoal) (s : Nat × Nat),
      p.reflow ch goal = .ok (p', evs) → .sendReflowMsg a b c d g s ∈ evs →
      p'.damage = none) := by
  refine ⟨?_, ?_, ?_⟩
  · intro p goal f r u hf hd hu hdm
    cases hport : p.layout_join_port with
    | none => simp [PageData.reflow, PageData.join_layout, hf, hd, hport, hu, hdm]
    | some j => simp [PageData.reflow, PageData.join_layout, hf, hd, hport, hu, hdm]
  · intro p lv ch goal
    cases hf : p.frame with
    | none => simp [PageData.add_damage, PageData.reflow, hf]
    | some f =>
      cases hd : f.documentElement with
      | none => simp [PageData.add_damage, PageData.reflow, hf, hd]
      | some r =>
        have hq : ∃ dd, (p.add_damage lv).damage = some dd := by
          cases hdm : p.damage with
          | none =>
            exact ⟨{ root := r, level := lv },
              by simp [PageData.add_damage, hf, hd, hdm]⟩
          | some d0 =>
            exact ⟨{ root := r, level := d0.level.add lv },
              by simp [PageData.add_damage, hf, hd, hdm]⟩
        have hfr : (p.add_damage lv).frame = some f := by
          cases hdm : p.damage with
          | none => simp [PageData.add_damage, hf, hd, hdm]
          | some d0 => simp [PageData.add_damage, hf, hd, hdm]
        obtain ⟨dd, hdd⟩ := hq
        cases hport : (p.add_damage lv).layout_join_port with
        | none =>
          cases hu : (p.add_damage lv).url with
          | none =>
            simp [PageData.reflow, PageData.join_layout, hfr, hd, hport, hu, hdd]
          | some u =>
            simp [PageData.reflow, PageData.join_layout, hfr, hd, hport, hu, hdd]
        | some j =>
          cases ch with
          | closedWithoutSignal =>
            simp [PageData.reflow, PageData.join_layout, hfr, hd, hport]
          | signals =>
            cases hu : (p.add_damage lv).url with
            | none =>
              simp [PageData.reflow, PageData.join_layout, hfr, hd, hport, hu, hdd]
            | some u =>
              simp [PageData.reflow, PageData.join_layout, hfr, hd, hport, hu, hdd]
  · intro p ch goal p' evs a b c d g s hok hmem
    cases hf : p.frame with
    | none =>
      simp [PageData.reflow, hf] at hok
      rw [hok.2] at hmem
      simp at hmem
    | some f =>
      cases hd : f.documentElement with
      | none =>
        simp [PageData.reflow, hf, hd] at hok
        rw [hok.2] at hmem
        simp at hmem
      | some r =>
        cases hport : p.layout_join_port with
        | none =>
          simp [PageData.reflow, PageData.join_layout, hf, hd, hport] at hok
          cases hu : p.url with
          | none => simp [hu] at hok
          | some u =>
            cases hdm : p.damage with
            | none => simp [hu, hdm] at hok
            | some dmg =>
              simp [hu, hdm] at hok
              rw [← hok.1]
        | some j =>
          cases ch with
          | closedWithoutSignal =>
            simp [PageData.reflow, PageData.join_layout, hf, hd, hport] at hok
          | signals =>
            simp [PageData.reflow, PageData.join_layout, hf, hd, hport] at hok
            cases hu : p.url with
            | none => simp [hu] at hok
            | some u =>
              cases hdm : p.damage with
              | none => simp [hu, hdm] at hok
              | some dmg =>
                simp [hu, hdm] at hok
                rw [← hok.1]

/-- Witness for C10: a loaded page with no pending damage makes reflow panic
on the damage unwrap; after `Page::damage` the panic is impossible; and the
concrete successful reflow of `busyPageData` leaves no pending damage. -/
theorem reflow_damage_unwrap_protocol_witness :
    ({ basePageData 0 with
        frame := some { documentElement := some 7 },
        url := some (3, false) } : PageData).reflow .signals .ReflowForDisplay =
      .error .missingDamage
    ∧ (busyPageData.add_damage .ReflowDocumentDamage).reflow .signals
        .ReflowForDisplay ≠ .error .missingDamage
    ∧ ({ busyPageData with
          layout_join_port := some 1, last_reflow_id := 1,
          damage := none } : PageData).damage = none := by
  refine ⟨?_, ?_, ?_⟩
  · exact reflow_damage_unwrap_protocol.1
      { basePageData 0 with
        frame := some { documentElement := some 7 }, url := some (3, false) }
      .ReflowForDisplay { documentElement := some 7 } 7 (3, false) rfl rfl rfl rfl
  · exact reflow_damage_unwrap_protocol.2.1 busyPageData .ReflowDocumentDamage
      .signals .ReflowForDisplay
  · exact reflow_damage_unwrap_protocol.2.2 busyPageData .signals .ReflowForDisplay
      { busyPageData with
        layout_join_port := some 1, last_reflow_id := 1, damage := none }
      [.layoutJoined 5, .setReadyState .PerformingLayout, .installJoinPort 1,
        .sendReflowMsg 1 3 7 .ReflowDocumentDamage .ReflowForDisplay (0, 0)]
      1 3 7 .ReflowDocumentDamage .ReflowForDisplay (0, 0) rfl (by simp)

/-- The `target_compare` loop equals: some new element is missing from the
previously hovered list. -/
theorem mouse_move_compare_loop_eq_any (o : List Nat) (target_list : List Nat) :
    mouse_move_compare_loop (some o) target_list =
      target_list.any (fun n => !(o.contains n)) := by
  unfold mouse_move_compare_loop
  suffices h : ∀ (tl : List Nat) (acc : Bool),
      tl.foldl (fun tc n => if !tc then !(o.contains n) else tc) acc =
        (acc || tl.any (fun n => !(o.contains n))) by
    simpa using h target_list false
  intro tl
  induction tl with
  | nil => simp
  | cons n ns ih =>
    intro acc
    rw [List.foldl_cons, ih, List.any_cons]
    cases acc <;> rfl

/-- The change test fires, for duplicate-free lists with a previous hovered
list present, exactly when the two lists differ as sets. -/
theorem mouse_move_target_compare_iff (o target_list : List Nat)
    (ho : o.Nodup) (ht : target_list.Nodup) :
    mouse_move_target_compare (some o) target_list = true ↔
      o.toFinset ≠ target_list.toFinset := by
  have hred : mouse_move_target_compare (some o) target_list =
      if o.length ≠ target_list.length then true
      else target_list.any (fun n => !(o.contains n)) := by
    simp only [mouse_move_target_compare, mouse_move_compare_loop_eq_any]
  rw [hred]
  constructor
  · intro h heq
    by_cases hlen : o.length ≠ target_list.length
    · apply hlen
      rw [← List.toFinset_card_of_nodup ho, ← List.toFinset_card_of_nodup ht, heq]
    · rw [if_neg hlen] at h
      simp at h
      obtain ⟨x, hx, hxo⟩ := h
      have : x ∈ o.toFinset := by rw [heq]; simpa using hx
      simp at this
      exact hxo this
  · intro hne
    by_cases hlen : o.length ≠ target_list.length
    · rw [if_pos hlen]
    · rw [if_neg hlen]
      simp only [not_not] at hlen
      by_contra h
      simp at h
      apply hne
      have hsub : target_list.toFinset ⊆ o.toFinset := by
        intro x hx
        simp at hx
        simpa using h x hx
      have hcard : o.toFinset.card ≤ target_list.toFinset.card := by
        rw [List.toFinset_card_of_nodup ho, List.toFinset_card_of_nodup ht, hlen]
      exact (Finset.eq_of_subset_of_card_le hsub hcard).symm

/-- Counterexample to C9: reflow-on-hover-change is not keyed on set
inequality.  With previously hovered list `[1, 2]` and a pointer-move whose
derived element list is `[1, 1]` (two hit nodes sharing one element), the
resulting element set `{1}` differs from the previous `{1, 2}`, yet the
handler requests no reflow and does not replace the stored list. -/
theorem mouse_move_misses_set_change :
    ([1, 1] : List Nat).toFinset ≠ ([1, 2] : List Nat).toFinset
    ∧ (handle_mouse_move (some [1, 2]) [1, 1]).reflow_with_damage = none
    ∧ (handle_mouse_move (some [1, 2]) [1, 1]).mouse_over_targets = some [1, 2] := by
  refine ⟨by decide, rfl, rfl⟩

/-- C9 (amended): on a pointer-move whose hit nodes derive the element list
`target_list`: (a) afterwards exactly those elements carry the hover flag,
provided the flags previously marked exactly the old stored list; (b) for
duplicate-free lists, when a previously hovered list exists, a reflow (with
selector-matching damage) is requested iff the two lists differ as sets, and
(c) the stored list is then replaced on any such set-changing move; (d) a
pointer-move reporting the same list as before never requests a reflow; and
(e) when no previous hovered list exists no reflow is requested, though the
list is stored. -/
theorem mouse_move_hover_protocol :
    (∀ (old : Option (List Nat)) (target_list : List Nat) (hovered : Nat → Bool),
      (∀ n, hovered n = (old.getD []).contains n) →
      ∀ n, hover_after old target_list hovered n = target_list.contains n)
    ∧ (∀ (o target_list : List Nat), o.Nodup → target_list.Nodup →
      ((handle_mouse_move (some o) target_list).reflow_with_damage =
          some .MatchSelectorsDocumentDamage ↔
        o.toFinset ≠ target_list.toFinset))
    ∧ (∀ (o target_list : List Nat), o.Nodup → target_list.Nodup →
      o.toFinset ≠ target_list.toFinset →
      (handle_mouse_move (some o) target_list).mouse_over_targets =
        some target_list)
    ∧ (∀ target_list : List Nat,
      (handle_mouse_move (some target_list) target_list).reflow_with_damage = none)
    ∧ (∀ target_list : List Nat,
      (handle_mouse_move none target_list).reflow_with_damage = none
      ∧ (handle_mouse_move none target_list).mouse_over_targets =
          some target_list) := by
  refine ⟨?_, ?_, ?_, ?_, ?_⟩
  · intro old target_list hovered hprev n
    unfold hover_after
    rw [hprev n]
    cases h : (old.getD []).contains n <;> simp [h]
  · intro o target_list ho ht
    have hiff := mouse_move_target_compare_iff o target_list ho ht
    unfold handle_mouse_move
    cases htc : mouse_move_target_compare (some o) target_list with
    | true => simp [htc] at hiff ⊢; exact hiff
    | false =>
      simp [htc] at hiff ⊢
      exact hiff
  · intro o target_list ho ht hne
    have htc := (mouse_move_target_compare_iff o target_list ho ht).mpr hne
    unfold handle_mouse_move
    simp [htc]
  · intro target_list
    unfold handle_mouse_move
    have htc : mouse_move_target_compare (some target_list) target_list = false := by
      have hred : mouse_move_target_compare (some target_list) target_list =
          if target_list.length ≠ target_list.length then true
          else target_list.any (fun n => !(target_list.contains n)) := by
        simp only [mouse_move_target_compare, mouse_move_compare_loop_eq_any]
      rw [hred, if_neg (by simp)]
      simp
    simp [htc]
  · intro target_list
    unfold handle_mouse_move
    simp [mouse_move_target_compare]

/-- Witness for C9 (amended): concrete pointer-moves with prior hovered list
`[1]` and new element list `[1, 2]` — hover flags end exactly on `{1, 2}`,
the sets differ so a selector-matching reflow fires and the list is
replaced; a repeated identical list and a first-ever move request none. -/
theorem mouse_move_hover_protocol_witness :
    hover_after (some [1]) [1, 2] (fun n => ([1] : List Nat).contains n) 2 =
      ([1, 2] : List Nat).contains 2
    ∧ ((handle_mouse_move (some [1]) [1, 2]).reflow_with_damage =
        some .MatchSelectorsDocumentDamage ↔
      ([1] : List Nat).toFinset ≠ ([1, 2] : List Nat).toFinset)
    ∧ (handle_mouse_move (some [1]) [1, 2]).mouse_over_targets = some [1, 2]
    ∧ (handle_mouse_move (some [5]) [5]).reflow_with_damage = none
    ∧ ((handle_mouse_move none [3]).reflow_with_damage = none
      ∧ (handle_mouse_move none [3]).mouse_over_targets = some [3]) :=
  ⟨mouse_move_hover_protocol.1 (some [1]) [1, 2]
      (fun n => ([1] : List Nat).contains n) (fun _ => rfl) 2,
   mouse_move_hover_protocol.2.1 [1] [1, 2] (by decide) (by decide),
   mouse_move_hover_protocol.2.2.1 [1] [1, 2] (by decide) (by decide) (by decide),
   mouse_move_hover_protocol.2.2.2.1 [5],
   mouse_move_hover_protocol.2.2.2.2 [3]⟩

/-- C8: on a tree whose root has id `A` and two (leaf) children with ids `B`
and `C`, all distinct: `find` returns the exact matching node for each of
`A`, `B`, `C` and none for any other id `x`; `remove B` removes and returns
B's subtree intact, leaving the root and C's subtree untouched; `remove`
of an absent id is none exactly like `find`; and `remove` never matches the
receiver itself (`remove A` is none although `find A` succeeds). -/
theorem find_remove_two_child_tree (A B C x : Nat)
    (hAB : A ≠ B) (hAC : A ≠ C) (hBC : B ≠ C)
    (hxA : x ≠ A) (hxB : x ≠ B) (hxC : x ≠ C) :
    (Page.node (basePageData A) [leafPage B, leafPage C]).find A =
      some (Page.node (basePageData A) [leafPage B, leafPage C])
    ∧ (Page.node (basePageData A) [leafPage B, leafPage C]).find B =
      some (leafPage B)
    ∧ (Page.node (basePageData A) [leafPage B, leafPage C]).find C =
      some (leafPage C)
    ∧ (Page.node (basePageData A) [leafPage B, leafPage C]).find x = none
    ∧ (Page.node (basePageData A) [leafPage B, leafPage C]).remove B =
      some (leafPage B, Page.node (basePageData A) [leafPage C])
    ∧ (Page.node (basePageData A) [leafPage B, leafPage C]).remove x = none
    ∧ (Page.node (basePageData A) [leafPage B, leafPage C]).remove A = none := by
  have hBA : ¬(B = A) := fun h => hAB h.symm
  have hCA : ¬(C = A) := fun h => hAC h.symm
  have hCB : ¬(C = B) := fun h => hBC h.symm
  have hAx : ¬(A = x) := fun h => hxA h.symm
  have hBx : ¬(B = x) := fun h => hxB h.symm
  have hCx : ¬(C = x) := fun h => hxC h.symm
  refine ⟨?_, ?_, ?_, ?_, ?_, ?_, ?_⟩
  · simp [Page.find, basePageData]
  · simp [Page.find, Page.find_in_kids, leafPage, basePageData, hAB]
  · simp [Page.find, Page.find_in_kids, leafPage, basePageData, hAC, hBC]
  · simp [Page.find, Page.find_in_kids, leafPage, basePageData, hAx, hBx, hCx]
  · simp [Page.remove, Page.remove_direct, leafPage, basePageData, Page.data]
  · simp [Page.remove, Page.remove_direct, Page.remove_in_kids, leafPage,
      basePageData, Page.data, hBx, hCx]
  · simp [Page.remove, Page.remove_direct, Page.remove_in_kids, leafPage,
      basePageData, Page.data, hBA, hCA]

/-- Witness for C8: the tree with root id 0 and children 1, 2, probed with
the absent id 5. -/
theorem find_remove_two_child_tree_witness :
    (Page.node (basePageData 0) [leafPage 1, leafPage 2]).find 0 =
      some (Page.node (basePageData 0) [leafPage 1, leafPage 2])
    ∧ (Page.node (basePageData 0) [leafPage 1, leafPage 2]).find 1 =
      some (leafPage 1)
    ∧ (Page.node (basePageData 0) [leafPage 1, leafPage 2]).find 2 =
      some (leafPage 2)
    ∧ (Page.node (basePageData 0) [leafPage 1, leafPage 2]).find 5 = none
    ∧ (Page.node (basePageData 0) [leafPage 1, leafPage 2]).remove 1 =
      some (leafPage 1, Page.node (basePageData 0) [leafPage 2])
    ∧ (Page.node (basePageData 0) [leafPage 1, leafPage 2]).remove 5 = none
    ∧ (Page.node (basePageData 0) [leafPage 1, leafPage 2]).remove 0 = none :=
  find_remove_two_child_tree 0 1 2 5 (by decide) (by decide) (by decide)
    (by decide) (by decide) (by decide)

mutual

/-- Every node of a cleared tree has no `js_info` left. -/
theorem Page.clear_js_all_mem (p : Page) :
    ∀ q ∈ p.clear_js_all.nodesL, q.data.js_info = none := by
  cases p with
  | node d cs =>
    intro q hq
    simp only [Page.clear_js_all, Page.nodesL, List.mem_cons] at hq
    cases hq with
    | inl h => rw [h]; rfl
    | inr h => exact Page.clear_js_all_kids_mem cs q h

/-- Forest version of `Page.clear_js_all_mem`. -/
theorem Page.clear_js_all_kids_mem (cs : List Page) :
    ∀ q ∈ Page.nodesL_kids (Page.clear_js_all_kids cs), q.data.js_info = none := by
  cases cs with
  | nil => intro q hq; simp [Page.clear_js_all_kids, Page.nodesL_kids] at hq
  | cons c cs' =>
    intro q hq
    simp only [Page.clear_js_all_kids, Page.nodesL_kids, List.mem_append] at hq
    cases hq with
    | inl h => exact Page.clear_js_all_mem c q h
    | inr h => exact Page.clear_js_all_kids_mem cs' q h

end

mutual

/-- Clearing the js contexts of a tree twice equals clearing once. -/
theorem Page.clear_js_all_idem (p : Page) :
    p.clear_js_all.clear_js_all = p.clear_js_all := by
  cases p with
  | node d cs =>
    simp only [Page.clear_js_all]
    exact congrArg _ (Page.clear_js_all_kids_idem cs)

/-- Forest version of `Page.clear_js_all_idem`. -/
theorem Page.clear_js_all_kids_idem (cs : List Page) :
    Page.clear_js_all_kids (Page.clear_js_all_kids cs) = Page.clear_js_all_kids cs := by
  cases cs with
  | nil => rfl
  | cons c cs' =>
    simp only [Page.clear_js_all_kids]
    rw [Page.clear_js_all_idem c, Page.clear_js_all_kids_idem cs']

end

/-- C7: every page's script-execution context is released exactly once on any
exit path.  If the guard fires while armed (abnormal unwind), `js_info`
becomes `none` for every page of the whole tree and the shared `js_context`
is cleared; a fire while armed is idempotent (releasing an already-released
tree changes nothing, so there is no double release); and on the normal exit
path the guard is neutered first, after which firing it releases nothing at
all — whatever state the shutdown protocol already produced is untouched. -/
theorem failsafe_releases_exactly_once :
    (∀ (st : ScriptTaskState) (q : Page),
      q ∈ (ScriptMemoryFailsafe.fire { owner := some () } st).page.nodesL →
      q.data.js_info = none)
    ∧ (∀ st : ScriptTaskState,
      (ScriptMemoryFailsafe.fire { owner := some () } st).js_context = none)
    ∧ (∀ st : ScriptTaskState,
      ScriptMemoryFailsafe.fire { owner := some () }
          (ScriptMemoryFailsafe.fire { owner := some () } st) =
        ScriptMemoryFailsafe.fire { owner := some () } st)
    ∧ (∀ (f : ScriptMemoryFailsafe) (st : ScriptTaskState),
      ScriptMemoryFailsafe.fire f.neuter st = st) := by
  refine ⟨?_, ?_, ?_, ?_⟩
  · intro st q hq
    exact Page.clear_js_all_mem st.page q hq
  · intro st
    rfl
  · intro st
    simp only [ScriptMemoryFailsafe.fire]
    rw [Page.clear_js_all_idem]
  · intro f st
    rfl

/-- Witness for C7: a two-page tree with live contexts; the armed guard
clears both pages and the shared context, firing twice changes nothing more,
and the neutered guard leaves the state alone. -/
theorem failsafe_releases_exactly_once_witness :
    (Page.node (basePageData 0) [leafPage 1]).clear_js_all.data.js_info = none
    ∧ (ScriptMemoryFailsafe.fire { owner := some () }
        { page := Page.node (basePageData 0) [leafPage 1],
          js_context := some () }).js_context = none
    ∧ ScriptMemoryFailsafe.fire { owner := some () }
        (ScriptMemoryFailsafe.fire { owner := some () }
          { page := Page.node (basePageData 0) [leafPage 1],
            js_context := some () }) =
      ScriptMemoryFailsafe.fire { owner := some () }
        { page := Page.node (basePageData 0) [leafPage 1], js_context := some () }
    ∧ ScriptMemoryFailsafe.fire
        (ScriptMemoryFailsafe.neuter { owner := some () })
        { page := Page.node (basePageData 0) [leafPage 1], js_context := some () } =
      { page := Page.node (basePageData 0) [leafPage 1], js_context := some () } := by
  refine ⟨?_, ?_, ?_, ?_⟩
  · exact failsafe_releases_exactly_once.1
      { page := Page.node (basePageData 0) [leafPage 1], js_context := some () }
      (Page.node (basePageData 0) [leafPage 1]).clear_js_all
      (by simp [Page.clear_js_all, Page.nodesL, ScriptMemoryFailsafe.fire])
  · exact failsafe_releases_exactly_once.2.1
      { page := Page.node (basePageData 0) [leafPage 1], js_context := some () }
  · exact failsafe_releases_exactly_once.2.2.1
      { page := Page.node (basePageData 0) [leafPage 1], js_context := some () }
  · exact failsafe_releases_exactly_once.2.2.2 { owner := some () }
      { page := Page.node (basePageData 0) [leafPage 1], js_context := some () }

/-- A position holding a value that is not in the left part of an append lies
in the right part. -/
theorem length_le_of_getElem_not_mem_left {α : Type} {xs ys : List α} {i : Nat}
    {a : α} (h : (xs ++ ys)[i]? = some a) (ha : a ∉ xs) : xs.length ≤ i := by
  by_contra hlt
  push_neg at hlt
  rw [List.getElem?_append_left hlt] at h
  exact ha (List.getElem?_mem h)

/-- A position holding a value that is not in the right part of an append
lies in the left part. -/
theorem lt_length_of_getElem_not_mem_right {α : Type} {xs ys : List α} {i : Nat}
    {a : α} (h : (xs ++ ys)[i]? = some a) (ha : a ∉ ys) : i < xs.length := by
  by_contra hge
  push_neg at hge
  rw [List.getElem?_append_right hge] at h
  exact ha (List.getElem?_mem h)

/-- Every event of the join/prepare-to-exit segment is a phase-0 event. -/
theorem phase_eq_zero_of_mem_phase1 (l : List Page) (e : ShutdownEvent)
    (h : e ∈ (l.map shutdown_phase1).flatten) : e.phase = 0 := by
  rw [List.mem_flatten] at h
  obtain ⟨blk, hblk, he⟩ := h
  rw [List.mem_map] at hblk
  obtain ⟨p, _, rfl⟩ := hblk
  unfold shutdown_phase1 at he
  rcases List.mem_append.mp he with h1 | h2
  · by_cases hs : p.data.layout_join_port.isSome
    · rw [if_pos hs] at h1
      simp at h1
      rw [h1]
      rfl
    · rw [if_neg hs] at h1
      simp at h1
  · simp at h2
    rcases h2 with h | h <;> rw [h] <;> rfl

/-- Every event of the frame-clearing segment is a phase-1 event. -/
theorem phase_of_mem_frame_seg (l : List Page) (e : ShutdownEvent)
    (h : e ∈ l.map (fun p => ShutdownEvent.frameCleared p.id)) : e.phase = 1 := by
  rw [List.mem_map] at h
  obtain ⟨p, _, rfl⟩ := h
  rfl

/-- Every event of the context-release segment is a phase-2 event. -/
theorem phase_of_mem_js_seg (l : List Page) (e : ShutdownEvent)
    (h : e ∈ l.map (fun p => ShutdownEvent.jsInfoCleared p.id)) : e.phase = 2 := by
  rw [List.mem_map] at h
  obtain ⟨p, _, rfl⟩ := h
  rfl

/-- Every event of the exit-now segment is a phase-4 event. -/
theorem phase_of_mem_exit_seg (l : List Page) (e : ShutdownEvent)
    (h : e ∈ l.map (fun p => ShutdownEvent.exitNowSent p.id)) : e.phase = 4 := by
  rw [List.mem_map] at h
  obtain ⟨p, _, rfl⟩ := h
  rfl

/-- Position bounds in the shutdown trace, by phase: an event observed at
position `i` lies inside the contiguous segment of its phase. -/
theorem shutdown_phase_bounds (t : Page) (i : Nat) (a : ShutdownEvent)
    (h : (shut_down_layout t).2[i]? = some a) :
    (a.phase = 0 → i < ((t.iterFrom.map shutdown_phase1).flatten).length)
    ∧ (1 ≤ a.phase → ((t.iterFrom.map shutdown_phase1).flatten).length ≤ i)
    ∧ (a.phase ≤ 1 →
      i < ((t.iterFrom.map shutdown_phase1).flatten).length + t.iterFrom.length)
    ∧ (2 ≤ a.phase →
      ((t.iterFrom.map shutdown_phase1).flatten).length + t.iterFrom.length ≤ i)
    ∧ (a.phase ≤ 2 →
      i < ((t.iterFrom.map shutdown_phase1).flatten).length + 2 * t.iterFrom.length)
    ∧ (3 ≤ a.phase →
      ((t.iterFrom.map shutdown_phase1).flatten).length + 2 * t.iterFrom.length ≤ i)
    ∧ (a.phase ≤ 3 →
      i < ((t.iterFrom.map shutdown_phase1).flatten).length
        + 2 * t.iterFrom.length + 1)
    ∧ (4 ≤ a.phase →
      ((t.iterFrom.map shutdown_phase1).flatten).length
        + 2 * t.iterFrom.length + 1 ≤ i) := by
  simp only [shut_down_layout] at h
  have hC := h
  rw [List.append_assoc] at hC
  have hB := h
  rw [List.append_assoc, List.append_assoc] at hB
  have hA := h
  rw [List.append_assoc, List.append_assoc, List.append_assoc] at hA
  refine ⟨?_, ?_, ?_, ?_, ?_, ?_, ?_, ?_⟩
  · intro hp
    exact lt_length_of_getElem_not_mem_right hA (fun hm => by
      rcases List.mem_append.mp hm with hm1 | hm'
      · have := phase_of_mem_frame_seg t.iterFrom a hm1; omega
      rcases List.mem_append.mp hm' with hm2 | hm''
      · have := phase_of_mem_js_seg t.iterFrom a hm2; omega
      rcases List.mem_append.mp hm'' with hm3 | hm4
      · simp at hm3; rw [hm3] at hp; simp [ShutdownEvent.phase] at hp
      · have := phase_of_mem_exit_seg t.iterFrom a hm4; omega)
  · intro hp
    exact length_le_of_getElem_not_mem_left hA (fun hm => by
      have := phase_eq_zero_of_mem_phase1 t.iterFrom a hm; omega)
  · intro hp
    have := lt_length_of_getElem_not_mem_right hB (fun hm => by
      rcases List.mem_append.mp hm with hm2 | hm''
      · have := phase_of_mem_js_seg t.iterFrom a hm2; omega
      rcases List.mem_append.mp hm'' with hm3 | hm4
      · simp at hm3; rw [hm3] at hp; simp [ShutdownEvent.phase] at hp
      · have := phase_of_mem_exit_seg t.iterFrom a hm4; omega)
    rw [List.length_append, List.length_map] at this
    exact this
  · intro hp
    have := length_le_of_getElem_not_mem_left hB (fun hm => by
      rcases List.mem_append.mp hm with hm0 | hm1
      · have := phase_eq_zero_of_mem_phase1 t.iterFrom a hm0; omega
      · have := phase_of_mem_frame_seg t.iterFrom a hm1; omega)
    rw [List.length_append, List.length_map] at this
    exact this
  · intro hp
    have := lt_length_of_getElem_not_mem_right hC (fun hm => by
      rcases List.mem_append.mp hm with hm3 | hm4
      · simp at hm3; rw [hm3] at hp; simp [ShutdownEvent.phase] at hp
      · have := phase_of_mem_exit_seg t.iterFrom a hm4; omega)
    rw [List.length_append, List.length_append, List.length_map,
      List.length_map] at this
    omega
  · intro hp
    have := length_le_of_getElem_not_mem_left hC (fun hm => by
      rcases List.mem_append.mp hm with hm' | hm2
      · rcases List.mem_append.mp hm' with hm0 | hm1
        · have := phase_eq_zero_of_mem_phase1 t.iterFrom a hm0; omega
        · have := phase_of_mem_frame_seg t.iterFrom a hm1; omega
      · have := phase_of_mem_js_seg t.iterFrom a hm2; omega)
    rw [List.length_append, List.length_append, List.length_map,
      List.length_map] at this
    omega
  · intro hp
    have := lt_length_of_getElem_not_mem_right h (fun hm => by
      have := phase_of_mem_exit_seg t.iterFrom a hm; omega)
    rw [List.length_append, List.length_append, List.length_append,
      List.length_map, List.length_map, List.length_singleton] at this
    omega
  · intro hp
    have := length_le_of_getElem_not_mem_left h (fun hm => by
      rcases List.mem_append.mp hm with hm' | hm3
      · rcases List.mem_append.mp hm' with hm'' | hm2
        · rcases List.mem_append.mp hm'' with hm0 | hm1
          · have := phase_eq_zero_of_mem_phase1 t.iterFrom a hm0; omega
          · have := phase_of_mem_frame_seg t.iterFrom a hm1; omega
        · have := phase_of_mem_js_seg t.iterFrom a hm2; omega
      · simp at hm3; rw [hm3] at hp; simp [ShutdownEvent.phase] at hp)
    rw [List.length_append, List.length_append, List.length_append,
      List.length_map, List.length_map, List.length_singleton] at this
    omega

/-- The structural iterator sequence of a forest is the flattened
per-subtree sequence of the reversed child list. -/
theorem Page.iterFrom_kids_eq (cs : List Page) :
    Page.iterFrom_kids cs = (cs.reverse.map Page.iterFrom).flatten := by
  induction cs with
  | nil => rfl
  | cons c cs' ih =>
    simp only [Page.iterFrom_kids, ih, List.reverse_cons, List.map_append,
      List.flatten_append, List.map_cons, List.flatten_cons, List.map_nil,
      List.flatten_nil, List.append_nil]

/-- The stack-based iterator equals the structural sequence: running the
stack yields the subtree sequences of the stacked pages in order. -/
theorem Page.iterAux_eq (stack : List Page) :
    Page.iterAux stack = (stack.map Page.iterFrom).flatten := by
  induction stack using Page.iterAux.induct with
  | case1 => rw [Page.iterAux]; rfl
  | case2 d cs rest ih =>
    rw [Page.iterAux, ih]
    simp only [List.map_cons, List.flatten_cons, Page.iterFrom,
      Page.iterFrom_kids_eq, List.map_append, List.flatten_append]
    simp

/-- The iterator started at a single root yields exactly `iterFrom`. -/
theorem Page.iterAux_single (p : Page) : Page.iterAux [p] = p.iterFrom := by
  rw [Page.iterAux_eq]
  simp

mutual

/-- The iterator visits exactly the nodes of the subtree. -/
theorem Page.mem_iterFrom (p q : Page) : q ∈ p.iterFrom ↔ q ∈ p.nodesL := by
  cases p with
  | node d cs =>
    simp only [Page.iterFrom, Page.nodesL, List.mem_cons]
    rw [Page.mem_iterFrom_kids cs q]

/-- Forest version of `Page.mem_iterFrom`. -/
theorem Page.mem_iterFrom_kids (cs : List Page) (q : Page) :
    q ∈ Page.iterFrom_kids cs ↔ q ∈ Page.nodesL_kids cs := by
  cases cs with
  | nil => simp [Page.iterFrom_kids, Page.nodesL_kids]
  | cons c cs' =>
    simp only [Page.iterFrom_kids, Page.nodesL_kids, List.mem_append]
    rw [Page.mem_iterFrom c q, Page.mem_iterFrom_kids cs' q]
    exact Or.comm

end

/-- Every shutdown event sits in one of the five phases. -/
theorem ShutdownEvent.phase_le_four (e : ShutdownEvent) : e.phase ≤ 4 := by
  cases e <;> simp [ShutdownEvent.phase]

/-- C3: `shut_down_layout` performs its phases in exactly this order over the
whole subtree — for every page, join any outstanding reflow then the
synchronous prepare-to-exit round trip (an infix block `join?/send/ack` per
page); then a frame clear for every page; then a context release for every
page; then one forced GC; then exit-now for every page — and any event of an
earlier phase occupies a strictly earlier position in the trace than any
event of a later phase; in particular exit-now is never sent to any layout
task before every page's context in the subtree has been released. -/
theorem shutdown_phases_ordered (t : Page) :
    (∀ q ∈ t.nodesL,
      (q.data.layout_join_port.isSome →
        ShutdownEvent.layoutJoined q.id ∈ (shut_down_layout t).2)
      ∧ ShutdownEvent.prepareToExitSent q.id ∈ (shut_down_layout t).2
      ∧ ShutdownEvent.prepareToExitAck q.id ∈ (shut_down_layout t).2
      ∧ ShutdownEvent.frameCleared q.id ∈ (shut_down_layout t).2
      ∧ ShutdownEvent.jsInfoCleared q.id ∈ (shut_down_layout t).2
      ∧ ShutdownEvent.exitNowSent q.id ∈ (shut_down_layout t).2
      ∧ shutdown_phase1 q <:+: (shut_down_layout t).2)
    ∧ ShutdownEvent.gcForced ∈ (shut_down_layout t).2
    ∧ (∀ (i j : Nat) (a b : ShutdownEvent),
      (shut_down_layout t).2.get? i = some a →
      (shut_down_layout t).2.get? j = some b →
      a.phase < b.phase → i < j) := by
  refine ⟨?_, ?_, ?_⟩
  · intro q hq
    have hq' : q ∈ t.iterFrom := (Page.mem_iterFrom t q).mpr hq
    have hblk : shutdown_phase1 q ∈ t.iterFrom.map shutdown_phase1 :=
      List.mem_map_of_mem shutdown_phase1 hq'
    refine ⟨?_, ?_, ?_, ?_, ?_, ?_, ?_⟩
    · intro hsome
      have hj : ShutdownEvent.layoutJoined q.id ∈ shutdown_phase1 q := by
        unfold shutdown_phase1
        rw [if_pos hsome]
        simp
      simp only [shut_down_layout, List.mem_append]
      exact Or.inl (Or.inl (Or.inl (Or.inl
        (List.mem_flatten.mpr ⟨shutdown_phase1 q, hblk, hj⟩))))
    · have hj : ShutdownEvent.prepareToExitSent q.id ∈ shutdown_phase1 q := by
        unfold shutdown_phase1
        simp
      simp only [shut_down_layout, List.mem_append]
      exact Or.inl (Or.inl (Or.inl (Or.inl
        (List.mem_flatten.mpr ⟨shutdown_phase1 q, hblk, hj⟩))))
    · have hj : ShutdownEvent.prepareToExitAck q.id ∈ shutdown_phase1 q := by
        unfold shutdown_phase1
        simp
      simp only [shut_down_layout, List.mem_append]
      exact Or.inl (Or.inl (Or.inl (Or.inl
        (List.mem_flatten.mpr ⟨shutdown_phase1 q, hblk, hj⟩))))
    · simp only [shut_down_layout, List.mem_append]
      exact Or.inl (Or.inl (Or.inl (Or.inr
        (List.mem_map_of_mem (fun p => ShutdownEvent.frameCleared p.id) hq'))))
    · simp only [shut_down_layout, List.mem_append]
      exact Or.inl (Or.inl (Or.inr
        (List.mem_map_of_mem (fun p => ShutdownEvent.jsInfoCleared p.id) hq')))
    · simp only [shut_down_layout, List.mem_append]
      exact Or.inr
        (List.mem_map_of_mem (fun p => ShutdownEvent.exitNowSent p.id) hq')
    · have hinf : shutdown_phase1 q <:+: (t.iterFrom.map shutdown_phase1).flatten :=
        List.infix_of_mem_flatten hblk
      simp only [shut_down_layout]
      refine hinf.trans ?_
      rw [List.append_assoc, List.append_assoc, List.append_assoc]
      exact (List.prefix_append _ _).isInfix
  · simp only [shut_down_layout, List.mem_append]
    exact Or.inl (Or.inr (by simp))
  · intro i j a b hi hj hab
    rw [List.get?_eq_getElem?] at hi hj
    have ha := shutdown_phase_bounds t i a hi
    have hb := shutdown_phase_bounds t j b hj
    have hb4 := b.phase_le_four
    have hcase : a.phase = 0 ∨ a.phase = 1 ∨ a.phase = 2 ∨ a.phase = 3 := by omega
    rcases hcase with h0 | h1 | h2 | h3
    · have hia := ha.1 h0
      have hjb := hb.2.1 (by omega)
      omega
    · have hia := ha.2.2.1 (by omega)
      have hjb := hb.2.2.2.1 (by omega)
      omega
    · have hia := ha.2.2.2.2.1 (by omega)
      have hjb := hb.2.2.2.2.2.1 (by omega)
      omega
    · have hia := ha.2.2.2.2.2.2.1 (by omega)
      have hjb := hb.2.2.2.2.2.2.2 (by omega)
      omega

/-- Witness for C3: a two-page tree (root busy with join port 5, one child);
the root's context release appears in the trace, and the concrete positions
of the root's context release (7) and exit-now (10) are ordered. -/
theorem shutdown_phases_ordered_witness :
    ShutdownEvent.exitNowSent 0 ∈
      (shut_down_layout
        (Page.node { basePageData 0 with layout_join_port := some 5 }
          [leafPage 1])).2
    ∧ 7 < 10 :=
  ⟨((shutdown_phases_ordered
      (Page.node { basePageData 0 with layout_join_port := some 5 }
        [leafPage 1])).1
      (Page.node { basePageData 0 with layout_join_port := some 5 }
        [leafPage 1])
      (by simp [Page.nodesL])).2.2.2.2.2.1,
   (shutdown_phases_ordered
      (Page.node { basePageData 0 with layout_join_port := some 5 }
        [leafPage 1])).2.2 7 10
      (.jsInfoCleared 0) (.exitNowSent 0) rfl rfl (by decide)⟩

mutual

/-- `find` succeeds exactly for the ids present in the subtree. -/
theorem Page.find_isSome_iff (p : Page) (i : Nat) :
    (p.find i).isSome ↔ i ∈ p.idsL := by
  cases p with
  | node d cs =>
    by_cases h : d.id = i
    · simp [Page.find, Page.idsL, h]
    · have hk := Page.find_in_kids_isSome_iff cs i
      simp only [Page.find, Page.idsL, if_neg h, List.mem_cons]
      rw [hk]
      constructor
      · exact fun hh => Or.inr hh
      · intro hh
        rcases hh with hh | hh
        · exact absurd hh.symm h
        · exact hh

/-- Forest version of `Page.find_isSome_iff`. -/
theorem Page.find_in_kids_isSome_iff (cs : List Page) (i : Nat) :
    (Page.find_in_kids cs i).isSome ↔ i ∈ Page.idsL_kids cs := by
  cases cs with
  | nil => simp [Page.find_in_kids, Page.idsL_kids]
  | cons c cs' =>
    simp only [Page.find_in_kids, Page.idsL_kids, List.mem_append]
    cases hc : c.find i with
    | some r =>
      have hcs := Page.find_isSome_iff c i
      rw [hc] at hcs
      simp only [Option.isSome_some, true_iff] at hcs
      simp [hcs]
    | none =>
      have hcs := Page.find_isSome_iff c i
      rw [hc] at hcs
      simp only [Option.isSome_none, Bool.false_eq_true, false_iff] at hcs
      simp [hcs, Page.find_in_kids_isSome_iff cs' i]

end

mutual

/-- The page `find` locates carries the id it was looked up by. -/
theorem Page.find_id_eq (p : Page) (i : Nat) (q : Page) (h : p.find i = some q) :
    q.data.id = i := by
  cases p with
  | node d cs =>
    by_cases hd : d.id = i
    · rw [Page.find, if_pos hd] at h
      cases h
      exact hd
    · rw [Page.find, if_neg hd] at h
      exact Page.find_in_kids_id_eq cs i q h

/-- Forest version of `Page.find_id_eq`. -/
theorem Page.find_in_kids_id_eq (cs : List Page) (i : Nat) (q : Page)
    (h : Page.find_in_kids cs i = some q) : q.data.id = i := by
  cases cs with
  | nil => simp [Page.find_in_kids] at h
  | cons c cs' =>
    rw [Page.find_in_kids] at h
    cases hc : c.find i with
    | some r =>
      rw [hc] at h
      cases h
      exact Page.find_id_eq c i q hc
    | none =>
      rw [hc] at h
      exact Page.find_in_kids_id_eq cs' i q h

end

mutual

/-- Storing a pending resize fails (panics) exactly when the id is absent. -/
theorem Page.set_resize_event_none_iff (p : Page) (i : Nat) (sz : Nat × Nat) :
    p.set_resize_event i sz = none ↔ p.find i = none := by
  cases p with
  | node d cs =>
    by_cases h : d.id = i
    · simp [Page.set_resize_event, Page.find, h]
    · simp only [Page.set_resize_event, Page.find, if_neg h, Option.map_eq_none']
      exact Page.set_resize_event_kids_none_iff cs i sz

/-- Forest version of `Page.set_resize_event_none_iff`. -/
theorem Page.set_resize_event_kids_none_iff (cs : List Page) (i : Nat)
    (sz : Nat × Nat) :
    Page.set_resize_event_kids cs i sz = none ↔ Page.find_in_kids cs i = none := by
  cases cs with
  | nil => simp [Page.set_resize_event_kids, Page.find_in_kids]
  | cons c cs' =>
    simp only [Page.set_resize_event_kids, Page.find_in_kids]
    cases hc : c.set_resize_event i sz with
    | some c2 =>
      have hfind : ¬(c.find i = none) := by
        rw [← Page.set_resize_event_none_iff c i sz]
        simp [hc]
      cases hf : c.find i with
      | none => exact absurd hf hfind
      | some r => simp
    | none =>
      have hfind : c.find i = none := (Page.set_resize_event_none_iff c i sz).mp hc
      rw [hfind]
      simp [Option.map_eq_none']
      exact Page.set_resize_event_kids_none_iff cs' i sz

end

mutual

/-- Effect of storing a pending resize: the tree keeps its ids, the located
page's data gets `resize_event := some sz`, every other lookup is
unchanged. -/
theorem Page.set_resize_event_spec (p : Page) (i : Nat) (sz : Nat × Nat)
    (t' : Page) (h : p.set_resize_event i sz = some t') :
    t'.idsL = p.idsL ∧
    ∀ j, t'.dataOf j =
      if j = i
      then (p.dataOf j).map (fun d => { d with resize_event := some sz })
      else p.dataOf j := by
  cases p with
  | node d cs =>
    by_cases hd : d.id = i
    · rw [Page.set_resize_event, if_pos hd] at h
      cases h
      constructor
      · simp [Page.idsL]
      · intro j
        by_cases hj : j = i
        · rw [if_pos hj]
          have hdj : d.id = j := by rw [hd, hj]
          simp only [Page.dataOf, Page.find]
          rw [show ({ d with resize_event := some sz } : PageData).id = d.id from rfl]
          rw [if_pos hdj, if_pos hdj]
          simp [Page.data]
        · rw [if_neg hj]
          simp only [Page.dataOf, Page.find]
          rw [show ({ d with resize_event := some sz } : PageData).id = d.id from rfl]
          by_cases hdj : d.id = j
          · rw [hd] at hdj
            exact absurd hdj.symm hj
          · rw [if_neg hdj, if_neg hdj]
    · rw [Page.set_resize_event, if_neg hd] at h
      rw [Option.map_eq_some'] at h
      obtain ⟨cs2, hcs2, rfl⟩ := h
      obtain ⟨hids, hdata⟩ := Page.set_resize_event_kids_spec cs i sz cs2 hcs2
      constructor
      · simp [Page.idsL, hids]
      · intro j
        by_cases hdj : d.id = j
        · have hji : ¬(j = i) := fun hji => hd (hji ▸ hdj)
          rw [if_neg hji]
          simp [Page.dataOf, Page.find, if_pos hdj, Page.data]
        · simp only [Page.dataOf, Page.find, if_neg hdj]
          exact hdata j

/-- Forest version of `Page.set_resize_event_spec`. -/
theorem Page.set_resize_event_kids_spec (cs : List Page) (i : Nat) (sz : Nat × Nat)
    (cs' : List Page) (h : Page.set_resize_event_kids cs i sz = some cs') :
    Page.idsL_kids cs' = Page.idsL_kids cs ∧
    ∀ j, (Page.find_in_kids cs' j).map Page.data =
      if j = i
      then ((Page.find_in_kids cs j).map Page.data).map
        (fun d => { d with resize_event := some sz })
      else (Page.find_in_kids cs j).map Page.data := by
  cases cs with
  | nil => simp [Page.set_resize_event_kids] at h
  | cons c cs0 =>
    rw [Page.set_resize_event_kids] at h
    cases hc : c.set_resize_event i sz with
    | some c2 =>
      rw [hc] at h
      cases h
      obtain ⟨hids, hdata⟩ := Page.set_resize_event_spec c i sz c2 hc
      constructor
      · simp [Page.idsL_kids, hids]
      · intro j
        by_cases hj : j = i
        · subst hj
          have hfind : ¬(c.find j = none) := by
            rw [← Page.set_resize_event_none_iff c j sz]
            simp [hc]
          cases hcf : c.find j with
          | none => exact absurd hcf hfind
          | some r =>
            have hd2 := hdata j
            rw [if_pos rfl] at hd2
            simp only [Page.dataOf, hcf, Option.map_some'] at hd2
            rw [Option.map_eq_some'] at hd2
            obtain ⟨r2, hr2, hr2d⟩ := hd2
            rw [if_pos rfl]
            simp [Page.find_in_kids, hcf, hr2, hr2d]
        · have hd2 := hdata j
          rw [if_neg hj] at hd2
          simp only [Page.dataOf] at hd2
          rw [if_neg hj]
          cases hcf : c.find j with
          | some r =>
            rw [hcf] at hd2
            simp only [Option.map_some'] at hd2
            rw [Option.map_eq_some'] at hd2
            obtain ⟨r2, hr2, hr2d⟩ := hd2
            simp [Page.find_in_kids, hcf, hr2, hr2d]
          | none =>
            rw [hcf] at hd2
            simp only [Option.map_none'] at hd2
            rw [Option.map_eq_none'] at hd2
            simp [Page.find_in_kids, hcf, hd2]
    | none =>
      rw [hc] at h
      rw [Option.map_eq_some'] at h
      obtain ⟨cs2, hcs2, rfl⟩ := h
      have hcfi : c.find i = none := (Page.set_resize_event_none_iff c i sz).mp hc
      obtain ⟨hids2, hdata2⟩ := Page.set_resize_event_kids_spec cs0 i sz cs2 hcs2
      constructor
      · simp [Page.idsL_kids, hids2]
      · intro j
        cases hcf : c.find j with
        | some r =>
          have hji : ¬(j = i) := by
            intro hji
            rw [hji, hcfi] at hcf
            cases hcf
          rw [if_neg hji]
          simp only [Page.find_in_kids, hcf]
        | none =>
          have hd2 := hdata2 j
          simp only [Page.find_in_kids, hcf]
          exact hd2

end

/-- Counterexample to C5: a resize message for a pipeline id with no page in
the tree is not absorbed as a no-op — the drain loop's lookup
(`find(id).expect("resize sent to nonexistent pipeline")`) panics, modelled
as `none`, instead of leaving the state unchanged. -/
theorem resize_unknown_pipeline_panics :
    handle_msgs_store (leafPage 0) [] (.ResizeMsg 1 (3, 4)) = none
    ∧ handle_msgs_store (leafPage 0) [] (.ResizeMsg 1 (3, 4)) ≠
        some (leafPage 0, []) := by
  constructor
  · rfl
  · intro h
    cases h

/-- C5 (amended): a resize message whose pipeline id has no page in the tree
is a fatal invariant violation — the drain loop panics ("resize sent to
nonexistent pipeline") and the actor terminates abnormally — rather than
being absorbed locally as a no-op. -/
theorem resize_unknown_pipeline_fatal (t : Page) (seq : List ScriptMsg)
    (i : Nat) (sz : Nat × Nat) (h : t.find i = none) :
    handle_msgs_store t seq (.ResizeMsg i sz) = none := by
  simp only [handle_msgs_store]
  rw [(Page.set_resize_event_none_iff t i sz).mpr h]
  rfl

/-- Witness for C5 (amended): the single-page tree with id 0 and a resize for
the absent pipeline 1. -/
theorem resize_unknown_pipeline_fatal_witness :
    handle_msgs_store (leafPage 0) [] (.ResizeMsg 1 (3, 4)) = none :=
  resize_unknown_pipeline_fatal (leafPage 0) [] 1 (3, 4) rfl

/-- A message is a resize exactly when it is `ResizeMsg`. -/
theorem ScriptMsg.isResize_iff (m : ScriptMsg) :
    m.isResize = true ↔ ∃ i sz, m = .ResizeMsg i sz := by
  cases m <;> simp [ScriptMsg.isResize]

/-- Storing a non-resize message appends it to the sequential batch. -/
theorem handle_msgs_store_not_resize (t : Page) (seq : List ScriptMsg)
    (m : ScriptMsg) (hm : m.isResize = false) :
    handle_msgs_store t seq m = some (t, seq ++ [m]) := by
  cases m <;> simp [ScriptMsg.isResize] at hm ⊢ <;> rfl

/-- A non-resize message contributes no entry to the latest-resize table. -/
theorem last_resize_for_cons_not_resize (j : Nat) (m : ScriptMsg)
    (ms : List ScriptMsg) (hm : m.isResize = false) :
    last_resize_for j (m :: ms) = last_resize_for j ms := by
  cases m <;> simp [ScriptMsg.isResize] at hm ⊢ <;>
    (cases h : last_resize_for j ms <;> simp [last_resize_for, h])

/-- Unfolding of the latest-resize table at a resize message. -/
theorem last_resize_for_cons_resize (j i : Nat) (sz : Nat × Nat)
    (ms : List ScriptMsg) :
    last_resize_for j (.ResizeMsg i sz :: ms) =
      match last_resize_for j ms with
      | some s => some s
      | none => if i = j then some sz else none := rfl

/-- Effect of the whole drain loop: it succeeds when every resize message
names an existing page; no resize message enters the sequential batch, every
other message is appended in arrival order; the tree keeps its ids; and each
page's state afterwards carries, as its pending resize, the size of the last
resize message addressed to it (all its other fields unchanged). -/
theorem handle_msgs_drain_spec (msgs : List ScriptMsg) :
    ∀ (t : Page) (seq : List ScriptMsg),
    (∀ i sz, ScriptMsg.ResizeMsg i sz ∈ msgs → (t.find i).isSome) →
    ∃ t' seq', handle_msgs_drain t seq msgs = some (t', seq')
      ∧ seq' = seq ++ msgs.filter (fun m => !m.isResize)
      ∧ t'.idsL = t.idsL
      ∧ ∀ j, t'.dataOf j =
          match last_resize_for j msgs with
          | some sz => (t.dataOf j).map (fun d => { d with resize_event := some sz })
          | none => t.dataOf j := by
  induction msgs with
  | nil =>
    intro t seq _
    exact ⟨t, seq, rfl, by simp, rfl, fun j => by simp [last_resize_for]⟩
  | cons m ms ih =>
    intro t seq hall
    by_cases hm : m.isResize = true
    · obtain ⟨i, sz, rfl⟩ := (ScriptMsg.isResize_iff m).mp hm
      have hsome : (t.find i).isSome := hall i sz (by simp)
      have hset : ¬(t.set_resize_event i sz = none) := by
        rw [Page.set_resize_event_none_iff]
        intro hnone
        rw [hnone] at hsome
        simp at hsome
      cases hst : t.set_resize_event i sz with
      | none => exact absurd hst hset
      | some t1 =>
        obtain ⟨hids1, hdata1⟩ := Page.set_resize_event_spec t i sz t1 hst
        have hall1 : ∀ i' sz', ScriptMsg.ResizeMsg i' sz' ∈ ms →
            (t1.find i').isSome := by
          intro i' sz' hmem
          have h0 := hall i' sz' (List.mem_cons_of_mem _ hmem)
          rw [Page.find_isSome_iff] at h0 ⊢
          rw [hids1]
          exact h0
        obtain ⟨t', seq', hdr, hseq, hids, hdata⟩ := ih t1 seq hall1
        refine ⟨t', seq', ?_, ?_, ?_, ?_⟩
        · simp only [handle_msgs_drain, handle_msgs_store, hst, Option.map_some']
          exact hdr
        · rw [hseq]
          congr 1
        · rw [hids, hids1]
        · intro j
          rw [hdata j, last_resize_for_cons_resize]
          cases hl : last_resize_for j ms with
          | some s =>
            rw [hdata1 j]
            by_cases hj : j = i
            · rw [if_pos hj]
              cases hdo : t.dataOf j <;> rfl
            · rw [if_neg hj]
          | none =>
            rw [hdata1 j]
            by_cases hj : j = i
            · rw [if_pos hj, if_pos (Eq.symm hj)]
            · rw [if_neg hj, if_neg (fun hij => hj (Eq.symm hij))]
    · have hm' : m.isResize = false := by
        cases hb : m.isResize
        · rfl
        · exact absurd hb hm
      have hall1 : ∀ i' sz', ScriptMsg.ResizeMsg i' sz' ∈ ms →
          (t.find i').isSome := by
        intro i' sz' hmem
        exact hall i' sz' (List.mem_cons_of_mem _ hmem)
      obtain ⟨t', seq', hdr, hseq, hids, hdata⟩ := ih t (seq ++ [m]) hall1
      refine ⟨t', seq', ?_, ?_, hids, ?_⟩
      · simp only [handle_msgs_drain, handle_msgs_store_not_resize t seq m hm']
        exact hdr
      · rw [hseq, List.filter_cons]
        simp [hm']
      · intro j
        rw [hdata j, last_resize_for_cons_not_resize j m ms hm']

/-- Consuming a pending resize never changes the page's id. -/
theorem consume_resize_id (d : PageData) : (consume_resize d).1.id = d.id := by
  unfold consume_resize
  by_cases h : d.layout_join_port = none <;> simp [h]

/-- A dispatch produced by consuming a page's pending resize carries that
page's id. -/
theorem consume_resize_entry_id (d : PageData) (x : Nat × (Nat × Nat))
    (h : (consume_resize d).2 = some x) : x.1 = d.id := by
  unfold consume_resize at h
  by_cases hp : d.layout_join_port = none
  · rw [if_pos hp] at h
    simp only [Option.map_eq_some'] at h
    obtain ⟨s, _, rfl⟩ := h
    rfl
  · rw [if_neg hp] at h
    cases h

mutual

/-- The consumption phase rewrites each page's data by `consume_resize` and
changes nothing else about lookups. -/
theorem Page.gather_dataOf (p : Page) :
    ∀ j, (p.gather_resizes.1).dataOf j =
      (p.dataOf j).map (fun d => (consume_resize d).1) := by
  cases p with
  | node d cs =>
    intro j
    simp only [Page.gather_resizes]
    by_cases hd : d.id = j
    · simp only [Page.dataOf, Page.find]
      rw [show ((consume_resize d).1.id = d.id) from consume_resize_id d, if_pos hd,
        if_pos hd]
      simp [Page.data]
    · simp only [Page.dataOf, Page.find]
      rw [show ((consume_resize d).1.id = d.id) from consume_resize_id d,
        if_neg hd, if_neg hd]
      exact Page.gather_dataOf_kids cs j

/-- Forest version of `Page.gather_dataOf`. -/
theorem Page.gather_dataOf_kids (cs : List Page) :
    ∀ j, (Page.find_in_kids (Page.gather_resizes_kids cs).1 j).map Page.data =
      ((Page.find_in_kids cs j).map Page.data).map (fun d => (consume_resize d).1) := by
  cases cs with
  | nil => intro j; simp [Page.gather_resizes_kids, Page.find_in_kids]
  | cons c cs' =>
    intro j
    simp only [Page.gather_resizes_kids, Page.find_in_kids]
    have hc := Page.gather_dataOf c j
    simp only [Page.dataOf] at hc
    cases hcf : c.find j with
    | some r =>
      rw [hcf] at hc
      simp only [Option.map_some'] at hc
      rw [Option.map_eq_some'] at hc
      obtain ⟨r2, hr2, hr2d⟩ := hc
      rw [hr2]
      simp [hcf, hr2d]
    | none =>
      rw [hcf] at hc
      simp only [Option.map_none'] at hc
      rw [Option.map_eq_none'] at hc
      rw [hc]
      simp only [hcf]
      exact Page.gather_dataOf_kids cs' j

end

mutual

/-- No dispatch for an id absent from the subtree. -/
theorem Page.gather_filter_absent (p : Page) (pid : Nat) (h : pid ∉ p.idsL) :
    (p.gather_resizes.2).filter (fun e => e.1 == pid) = [] := by
  cases p with
  | node d cs =>
    simp only [Page.idsL, List.mem_cons, not_or] at h
    obtain ⟨hd, hk⟩ := h
    simp only [Page.gather_resizes, List.filter_append]
    rw [Page.gather_filter_absent_kids cs pid hk, List.append_nil]
    cases hx : (consume_resize d).2 with
    | none => simp
    | some x =>
      have hxid := consume_resize_entry_id d x hx
      have hne : (x.1 == pid) = false := by
        simp [hxid]
        exact fun he => hd he.symm
      simp [List.filter, hne]

/-- Forest version of `Page.gather_filter_absent`. -/
theorem Page.gather_filter_absent_kids (cs : List Page) (pid : Nat)
    (h : pid ∉ Page.idsL_kids cs) :
    ((Page.gather_resizes_kids cs).2).filter (fun e => e.1 == pid) = [] := by
  cases cs with
  | nil => rfl
  | cons c cs' =>
    simp only [Page.idsL_kids, List.mem_append, not_or] at h
    obtain ⟨hc, hcs⟩ := h
    simp only [Page.gather_resizes_kids, List.filter_append]
    rw [Page.gather_filter_absent c pid hc, Page.gather_filter_absent_kids cs' pid hcs]
    rfl

end

mutual

/-- With distinct ids, the dispatches for a present page are exactly what
consuming that page's pending resize yields: one synthetic resize event when
the page is idle with a pending size, nothing otherwise. -/
theorem Page.gather_filter_found (p : Page) (pid : Nat) (q : Page)
    (hnd : p.idsL.Nodup) (h : p.find pid = some q) :
    (p.gather_resizes.2).filter (fun e => e.1 == pid) =
      match (consume_resize q.data).2 with
      | some x => [x]
      | none => [] := by
  cases p with
  | node d cs =>
    rw [Page.find] at h
    rw [Page.idsL, List.nodup_cons] at hnd
    by_cases hd : d.id = pid
    · rw [if_pos hd] at h
      cases h
      obtain ⟨hnm, hndk⟩ := hnd
      simp only [Page.gather_resizes, List.filter_append]
      rw [Page.gather_filter_absent_kids cs pid (hd ▸ hnm), List.append_nil]
      cases hx : (consume_resize d).2 with
      | none => simp [Page.data, hx]
      | some x =>
        have hxid := consume_resize_entry_id d x hx
        have hkeep : (x.1 == pid) = true := by simp [hxid, hd]
        simp [Page.data, hx, List.filter, hkeep]
    · rw [if_neg hd] at h
      simp only [Page.gather_resizes, List.filter_append]
      cases hx : (consume_resize d).2 with
      | none =>
        simp only [List.filter_nil, List.nil_append]
        exact Page.gather_filter_found_kids cs pid q hnd.2 h
      | some x =>
        have hxid := consume_resize_entry_id d x hx
        have hne : (x.1 == pid) = false := by simp [hxid, hd]
        simp only [List.filter, hne]
        simp only [List.nil_append]
        exact Page.gather_filter_found_kids cs pid q hnd.2 h

/-- Forest version of `Page.gather_filter_found`. -/
theorem Page.gather_filter_found_kids (cs : List Page) (pid : Nat) (q : Page)
    (hnd : (Page.idsL_kids cs).Nodup) (h : Page.find_in_kids cs pid = some q) :
    ((Page.gather_resizes_kids cs).2).filter (fun e => e.1 == pid) =
      match (consume_resize q.data).2 with
      | some x => [x]
      | none => [] := by
  cases cs with
  | nil => simp [Page.find_in_kids] at h
  | cons c cs' =>
    rw [Page.find_in_kids] at h
    rw [Page.idsL_kids, List.nodup_append] at hnd
    obtain ⟨hnc, hncs, hdisj⟩ := hnd
    simp only [Page.gather_resizes_kids, List.filter_append]
    cases hcf : c.find pid with
    | some r =>
      rw [hcf] at h
      cases h
      have hmem : pid ∈ c.idsL := by
        rw [← Page.find_isSome_iff]
        simp [hcf]
      have habs : pid ∉ Page.idsL_kids cs' := fun hm => hdisj hmem hm
      rw [Page.gather_filter_found c pid q hnc hcf,
        Page.gather_filter_absent_kids cs' pid habs, List.append_nil]
    | none =>
      rw [hcf] at h
      have habs : pid ∉ c.idsL := by
        rw [← Page.find_isSome_iff]
        simp [hcf]
      rw [Page.gather_filter_absent c pid habs, List.nil_append]
      exact Page.gather_filter_found_kids cs' pid q hncs h

end

/-- A non-resize message contributes nothing to the resize history. -/
theorem resize_pick_not_resize (j : Nat) (m : ScriptMsg)
    (hm : m.isResize = false) : resize_pick j m = none := by
  cases m <;> simp [ScriptMsg.isResize] at hm ⊢ <;> rfl

/-- The last element of a cons: the tail's last element if the tail is
nonempty, the head otherwise. -/
theorem getLast_cons_match {α : Type} (x : α) (l : List α) :
    (x :: l).getLast? =
      match l.getLast? with
      | some y => some y
      | none => some x := by
  cases l with
  | nil => rfl
  | cons y l' =>
    rw [List.getLast?_cons_cons]
    cases hz : (y :: l').getLast? with
    | some z => rfl
    | none =>
      rw [List.getLast?_eq_none_iff] at hz
      cases hz

/-- The latest-wins pending value equals the last element of the page's
resize-size history. -/
theorem last_resize_for_eq_getLast (j : Nat) (msgs : List ScriptMsg) :
    last_resize_for j msgs = (resize_sizes_for j msgs).getLast? := by
  induction msgs with
  | nil => rfl
  | cons m ms ih =>
    by_cases hm : m.isResize = true
    · obtain ⟨i, sz, rfl⟩ := (ScriptMsg.isResize_iff m).mp hm
      rw [last_resize_for_cons_resize]
      unfold resize_sizes_for
      rw [List.filterMap_cons]
      by_cases hij : i = j
      · rw [show resize_pick j (ScriptMsg.ResizeMsg i sz) = some sz by
          simp [resize_pick, hij]]
        rw [getLast_cons_match]
        rw [ih]
        unfold resize_sizes_for
        cases hl : (ms.filterMap (resize_pick j)).getLast? <;> simp [hij]
      · rw [show resize_pick j (ScriptMsg.ResizeMsg i sz) = none by
          simp [resize_pick, hij]]
        rw [ih]
        unfold resize_sizes_for
        cases hl : (ms.filterMap (resize_pick j)).getLast? <;> simp [hij]
    · have hm' : m.isResize = false := by
        cases hb : m.isResize
        · rfl
        · exact absurd hb hm
      rw [last_resize_for_cons_not_resize j m ms hm']
      unfold resize_sizes_for
      rw [List.filterMap_cons, resize_pick_not_resize j m hm']
      exact ih

/-- C2: for a sequence of resize messages for the same page arriving before
the actor next drains (at least one, with `szLast` the size of the last one):
draining stores each one as the page's single pending resize instead of
queuing it (no resize reaches the sequential batch; all other messages are
batched in arrival order), leaving the page's pending slot holding `szLast`;
and at the start of a later iteration, the page having no reflow in flight,
the consumption phase emits exactly one synthetic resize dispatch for the
page, carrying `szLast`, and clears the slot. -/
theorem resize_messages_coalesce (t : Page) (msgs : List ScriptMsg) (pid : Nat)
    (q : PageData) (szLast : Nat × Nat)
    (hnodup : t.idsL.Nodup)
    (hfind : t.dataOf pid = some q)
    (hidle : q.layout_join_port = none)
    (hall : ∀ i sz, ScriptMsg.ResizeMsg i sz ∈ msgs → i ∈ t.idsL)
    (hlast : (resize_sizes_for pid msgs).getLast? = some szLast) :
    ∃ t' seq', handle_msgs_drain t [] msgs = some (t', seq')
      ∧ seq' = msgs.filter (fun m => !m.isResize)
      ∧ t'.dataOf pid = some { q with resize_event := some szLast }
      ∧ (t'.gather_resizes.2).filter (fun e => e.1 == pid) = [(pid, szLast)]
      ∧ (t'.gather_resizes.1).dataOf pid = some { q with resize_event := none } := by
  have hall' : ∀ i sz, ScriptMsg.ResizeMsg i sz ∈ msgs → (t.find i).isSome := by
    intro i sz hmem
    rw [Page.find_isSome_iff]
    exact hall i sz hmem
  obtain ⟨t', seq', hdr, hseq, hids, hdata⟩ := handle_msgs_drain_spec msgs t [] hall'
  have hlr : last_resize_for pid msgs = some szLast := by
    rw [last_resize_for_eq_getLast]
    exact hlast
  have hqid : q.id = pid := by
    simp only [Page.dataOf, Option.map_eq_some'] at hfind
    obtain ⟨qn, hqn, hqd⟩ := hfind
    rw [← hqd]
    exact Page.find_id_eq t pid qn hqn
  have hdata' : t'.dataOf pid = some { q with resize_event := some szLast } := by
    rw [hdata pid, hlr, hfind]
    rfl
  have hqq : ∃ qq, t'.find pid = some qq
      ∧ qq.data = { q with resize_event := some szLast } := by
    have h0 : (t'.find pid).map Page.data =
        some { q with resize_event := some szLast } := hdata'
    rw [Option.map_eq_some'] at h0
    obtain ⟨qq, hqq, hqd⟩ := h0
    exact ⟨qq, hqq, hqd⟩
  obtain ⟨qq, hqqf, hqqd⟩ := hqq
  have hnodup' : t'.idsL.Nodup := by
    rw [hids]
    exact hnodup
  have hconsume : (consume_resize qq.data).2 = some (pid, szLast) := by
    rw [hqqd]
    unfold consume_resize
    rw [if_pos (by simp [hidle])]
    simp [hqid]
  refine ⟨t', seq', hdr, by rw [hseq, List.nil_append], hdata', ?_, ?_⟩
  · rw [Page.gather_filter_found t' pid qq hnodup' hqqf, hconsume]
  · rw [Page.gather_dataOf t' pid, hdata']
    rw [Option.map_some']
    congr 1
    rw [hqqd] at hconsume
    unfold consume_resize
    rw [if_pos (by simp [hidle])]

/-- Witness for C2: a two-page tree; pipeline 0 receives two resize messages
with a timer message in between; the theorem yields the drained state, the
resize-free batch, the coalesced pending value `(1024, 768)`, the single
dispatch and the cleared slot. -/
theorem resize_messages_coalesce_witness :
    ∃ t' seq',
      handle_msgs_drain (Page.node (basePageData 0) [leafPage 1]) []
          [.ResizeMsg 0 (800, 600), .FireTimerMsg 1 5, .ResizeMsg 0 (1024, 768)] =
        some (t', seq')
      ∧ seq' = List.filter (fun m => !m.isResize)
          [.ResizeMsg 0 (800, 600), .FireTimerMsg 1 5, .ResizeMsg 0 (1024, 768)]
      ∧ t'.dataOf 0 = some { basePageData 0 with resize_event := some (1024, 768) }
      ∧ (t'.gather_resizes.2).filter (fun e => e.1 == 0) = [(0, (1024, 768))]
      ∧ (t'.gather_resizes.1).dataOf 0 =
          some { basePageData 0 with resize_event := none } :=
  resize_messages_coalesce (Page.node (basePageData 0) [leafPage 1])
    [.ResizeMsg 0 (800, 600), .FireTimerMsg 1 5, .ResizeMsg 0 (1024, 768)]
    0 (basePageData 0) (1024, 768)
    (by decide)
    rfl
    rfl
    (by
      intro i sz hmem
      simp only [List.mem_cons, List.not_mem_nil, or_false] at hmem
      rcases hmem with h | h | h
      · cases h
        simp [Page.idsL, Page.idsL_kids, leafPage, basePageData]
      · cases h
      · cases h
        simp [Page.idsL, Page.idsL_kids, leafPage, basePageData])
    rfl
